import Mathlib

/-!
Shallow embedding of the CRM module (src/src/db.js and src/src/crm.js).

The backing store (four Supabase/PostgreSQL tables) is modelled as a `Store`
holding one list of rows per table together with the serial-id counters.
Each JavaScript method of `SupabaseDB` / `CRM` becomes a Lean function that
takes the bound tenant id (`agentId`), the inputs, the current wall-clock
instant (`now : Nat`, standing for `new Date().toISOString()`), and the
store, and returns the call's result together with the store after the
queries it issued.  Fallible calls (PostgREST `.single()`, thrown
validation errors) return `Except CrmError`; because a thrown error does
not undo queries already executed, every operation returns the
post-effect store even in the error case.  Timestamps are naturals,
monetary values are integers, and foreign-key enforcement (which lives in
the database engine, not in the JavaScript layer) is not part of the
issued queries and hence not modelled.
-/

namespace CrmModel

/-- Row of `crm_stages`. -/
structure Stage where
  id : Nat
  agent_id : String
  name : String
  position : Int
  color : Option String := none
  created_at : Nat := 0
deriving DecidableEq

/-- Row of `crm_contacts`. -/
structure Contact where
  id : Nat
  agent_id : String
  name : String
  email : Option String := none
  phone : Option String := none
  company : Option String := none
  role : Option String := none
  stage_id : Option Nat := none
  stage_entered_at : Option Nat := none
  source : Option String := none
  source_detail : Option String := none
  assigned_to : Option String := none
  tags : List String := []
  custom_fields : List (String × String) := []
  deal_value : Option Int := none
  currency : String := "AUD"
  is_active : Bool := true
  lost_reason : Option String := none
  created_at : Nat := 0
  updated_at : Nat := 0
  last_contact_at : Option Nat := none
deriving DecidableEq

/-- Row of `crm_interactions` (`type` is a Lean keyword, hence `itype`). -/
structure Interaction where
  id : Nat
  agent_id : String
  contact_id : Nat
  itype : String
  subject : Option String := none
  content : Option String := none
  created_by : String
  created_by_type : String := "agent"
  scheduled_at : Option Nat := none
  completed_at : Option Nat := none
  metadata : List (String × String) := []
  created_at : Nat := 0
deriving DecidableEq

/-- Row of `crm_tasks`. -/
structure Task where
  id : Nat
  agent_id : String
  contact_id : Option Nat := none
  title : String
  description : Option String := none
  due_at : Option Nat := none
  assigned_to : Option String := none
  priority : String := "medium"
  completed : Bool := false
  completed_at : Option Nat := none
  created_at : Nat := 0
deriving DecidableEq

/-- The whole backing store: four tables plus their serial id counters. -/
structure Store where
  stages : List Stage := []
  contacts : List Contact := []
  interactions : List Interaction := []
  tasks : List Task := []
  nextStageId : Nat := 1
  nextContactId : Nat := 1
  nextInteractionId : Nat := 1
  nextTaskId : Nat := 1
deriving DecidableEq

/-- Error taxonomy: thrown validation errors from `crm.js`, PostgREST
`.single()` with zero rows (NotFound), and other store errors. -/
inductive CrmError where
  | missingField (field : String)
  | notFound
  | storeFailure (msg : String)
deriving DecidableEq

/-- JavaScript truthiness of an optional number (`0`, like `undefined`, is falsy). -/
def jsTruthyNat (o : Option Nat) : Bool :=
  match o with
  | none => false
  | some v => v != 0

/-- Models `x || null` for an optional number field. -/
def jsOrNullNat (o : Option Nat) : Option Nat :=
  if jsTruthyNat o then o else none

/-- Models `x || null` for an optional integer (deal value) field:
`0` is falsy in JavaScript and collapses to `null`. -/
def jsOrNullInt (o : Option Int) : Option Int :=
  match o with
  | none => none
  | some v => if v = 0 then none else some v

/-- JavaScript truthiness of an optional string (the empty string is falsy). -/
def jsTruthyStr (o : Option String) : Bool :=
  match o with
  | none => false
  | some s => !s.isEmpty

/-- Models `x || null` for an optional string field. -/
def jsOrNullStr (o : Option String) : Option String :=
  if jsTruthyStr o then o else none

/-- Models `x || d` for an optional string field with default `d`. -/
def jsStrOrD (o : Option String) (d : String) : String :=
  if jsTruthyStr o then o.getD d else d

/-- Ordering relation used by `.order('position')` on stages. -/
def stageLE (a b : Stage) : Prop := a.position ≤ b.position

instance : DecidableRel stageLE := fun a b =>
  inferInstanceAs (Decidable (a.position ≤ b.position))

instance : IsTotal Stage stageLE := ⟨fun a b => Int.le_total a.position b.position⟩

instance : IsTrans Stage stageLE := ⟨fun _ _ _ h1 h2 => le_trans h1 h2⟩

/-- Ordering relation used by `.order('updated_at', { ascending: false })` on contacts. -/
def contactRecencyGE (a b : Contact) : Prop := b.updated_at ≤ a.updated_at

instance : DecidableRel contactRecencyGE := fun a b =>
  inferInstanceAs (Decidable (b.updated_at ≤ a.updated_at))

instance : IsTotal Contact contactRecencyGE := ⟨fun a b => Nat.le_total b.updated_at a.updated_at⟩

instance : IsTrans Contact contactRecencyGE := ⟨fun _ _ _ h1 h2 => le_trans h2 h1⟩

/-- Ordering relation used by `.order('created_at', { ascending: false })` on interactions. -/
def interactionRecencyGE (a b : Interaction) : Prop := b.created_at ≤ a.created_at

instance : DecidableRel interactionRecencyGE := fun a b =>
  inferInstanceAs (Decidable (b.created_at ≤ a.created_at))

instance : IsTotal Interaction interactionRecencyGE :=
  ⟨fun a b => Nat.le_total b.created_at a.created_at⟩

instance : IsTrans Interaction interactionRecencyGE := ⟨fun _ _ _ h1 h2 => le_trans h2 h1⟩

/-- Lexicographic comparison on a triple of naturals (helper for the task ordering). -/
def lex3 (x y : Nat × Nat × Nat) : Prop :=
  x.1 < y.1 ∨ (x.1 = y.1 ∧ (x.2.1 < y.2.1 ∨ (x.2.1 = y.2.1 ∧ x.2.2 ≤ y.2.2)))

instance : DecidableRel lex3 := fun x y => by unfold lex3; infer_instance

/-- Sort key for `.order('completed').order('due_at', { ascending: true, nullsFirst: false })`:
incomplete tasks first, then ascending due date with null due dates last. -/
def taskKey (t : Task) : Nat × Nat × Nat :=
  ((if t.completed then 1 else 0), (if t.due_at.isSome then 0 else 1), t.due_at.getD 0)

/-- Ordering relation for task listings. -/
def taskLE (a b : Task) : Prop := lex3 (taskKey a) (taskKey b)

instance : DecidableRel taskLE := fun a b =>
  inferInstanceAs (Decidable (lex3 (taskKey a) (taskKey b)))

instance : IsTotal Task taskLE :=
  ⟨fun a b => by unfold taskLE lex3; omega⟩

instance : IsTrans Task taskLE :=
  ⟨fun a b c h1 h2 => by unfold taskLE lex3 at *; omega⟩

-- ============ STAGES (db.js) ============

/-- `listStages`: select stages of the bound tenant, ordered by position. -/
def listStages (agentId : String) (s : Store) : List Stage :=
  (s.stages.filter (fun st => st.agent_id == agentId)).insertionSort stageLE

/-- Input object for `createStage` (fields absent in JS are `none`). -/
structure StageInput where
  name : Option String := none
  position : Option Int := none
  color : Option String := none

/-- `db.createStage`: insert a stage stamped with the tenant id.  The serial
id and `created_at` are assigned server-side. -/
def dbCreateStage (agentId : String) (name : String) (position : Int)
    (color : Option String) (now : Nat) (s : Store) : Except CrmError Stage × Store :=
  let row : Stage :=
    { id := s.nextStageId, agent_id := agentId, name := name,
      position := position, color := jsOrNullStr color, created_at := now }
  (Except.ok row, { s with stages := s.stages ++ [row], nextStageId := s.nextStageId + 1 })

/-- Column patch accepted by `db.updateStage` (`.update(updates)` with raw columns). -/
structure StageUpdate where
  name : Option String := none
  position : Option Int := none
  color : Option (Option String) := none

/-- Apply a stage column patch. -/
def applyStageUpdate (u : StageUpdate) (st : Stage) : Stage :=
  { st with
    name := u.name.getD st.name,
    position := u.position.getD st.position,
    color := u.color.getD st.color }

/-- Row predicate for `.eq('id', id).eq('agent_id', agentId)` on stages. -/
def stageMatch (agentId : String) (id : Nat) (st : Stage) : Bool :=
  st.id == id && st.agent_id == agentId

/-- `db.updateStage`: update the tenant's row with the given id and return it
via `.single()`.  `.single()` fails with no row (nothing was written then)
or with more than one row (the rows were written nevertheless). -/
def updateStage (agentId : String) (id : Nat) (u : StageUpdate) (s : Store) :
    Except CrmError Stage × Store :=
  match s.stages.filter (stageMatch agentId id) with
  | [st] =>
      (Except.ok (applyStageUpdate u st),
        { s with stages :=
            s.stages.map fun st =>
              if stageMatch agentId id st then applyStageUpdate u st else st })
  | [] => (Except.error CrmError.notFound, s)
  | _ =>
      (Except.error (CrmError.storeFailure "multiple rows"),
        { s with stages :=
            s.stages.map fun st =>
              if stageMatch agentId id st then applyStageUpdate u st else st })

/-- Does the contact reference one of the given (deleted) stages? -/
def refsDeletedStage (deleted : List Stage) (c : Contact) : Bool :=
  match c.stage_id with
  | some sid => deleted.any (fun st => st.id == sid)
  | none => false

/-- `db.deleteStage`: delete the tenant's row with the given id.  The
schema's `on delete set null` referential action then nulls the stage
reference of every contact — of any tenant — that pointed at a deleted
stage (this runs inside the database engine, not as a tenant-scoped
query). -/
def deleteStage (agentId : String) (id : Nat) (s : Store) : Store :=
  let deleted := s.stages.filter (stageMatch agentId id)
  { s with
    stages := s.stages.filter (fun st => !(stageMatch agentId id st)),
    contacts := s.contacts.map (fun c =>
      if refsDeletedStage deleted c then { c with stage_id := none } else c) }

/-- Models `stageIds.map((id, index) => ({ id, position: index + 1 }))`:
pair each id with its 1-based position; `k` is the position of the head
(the call site uses `k = 1`). -/
def posPairs (k : Int) : List Nat → List (Nat × Int)
  | [] => []
  | i :: is => (i, k) :: posPairs (k + 1) is

/-- The sequential update loop inside `db.reorderStages`; a failed update
aborts the loop, keeping the updates already applied. -/
def reorderAux (agentId : String) : List (Nat × Int) → Store → Except CrmError Unit × Store
  | [], s => (Except.ok (), s)
  | (i, p) :: rest, s =>
      match updateStage agentId i { position := some p } s with
      | (Except.error e, s') => (Except.error e, s')
      | (Except.ok _, s') => reorderAux agentId rest s'

/-- `db.reorderStages`: rewrite each listed stage's position to index+1,
sequentially, then return `listStages`. -/
def reorderStages (agentId : String) (stageIds : List Nat) (s : Store) :
    Except CrmError (List Stage) × Store :=
  match reorderAux agentId (posPairs 1 stageIds) s with
  | (Except.error e, s') => (Except.error e, s')
  | (Except.ok _, s') => (Except.ok (listStages agentId s'), s')

-- ============ STAGES (crm.js) ============

/-- `CRM.createStage`: require a (truthy) name, auto-assign the position
`existing.length + 1` when none is supplied, then insert. -/
def crmCreateStage (agentId : String) (inp : StageInput) (now : Nat) (s : Store) :
    Except CrmError Stage × Store :=
  if !(jsTruthyStr inp.name) then (Except.error (CrmError.missingField "Stage name"), s)
  else
    let pos : Int :=
      match inp.position with
      | some p => p
      | none => Int.ofNat (listStages agentId s).length + 1
    dbCreateStage agentId (inp.name.getD "") pos inp.color now s

/-- The six fixed default stages seeded by `initializeDefaultStages`. -/
def defaultStageSeeds : List (String × Int × String) :=
  [("Lead", 1, "#6366f1"), ("Contacted", 2, "#8b5cf6"), ("Qualified", 3, "#a855f7"),
   ("Proposal", 4, "#d946ef"), ("Negotiation", 5, "#ec4899"), ("Won", 6, "#22c55e")]

/-- The seeding loop of `initializeDefaultStages`: create each default stage
in order, collecting the created rows. -/
def seedStages (agentId : String) (now : Nat) :
    List (String × Int × String) → Store → Except CrmError (List Stage) × Store
  | [], s => (Except.ok [], s)
  | (n, p, c) :: rest, s =>
      match crmCreateStage agentId { name := some n, position := some p, color := some c } now s with
      | (Except.error e, s') => (Except.error e, s')
      | (Except.ok st, s') =>
          match seedStages agentId now rest s' with
          | (Except.error e, s'') => (Except.error e, s'')
          | (Except.ok sts, s'') => (Except.ok (st :: sts), s'')

/-- `CRM.initializeDefaultStages`: if the tenant already has stages, return
them untouched with status `already_initialized`; otherwise seed the six
defaults and return them with status `initialized`. -/
def initializeDefaultStages (agentId : String) (now : Nat) (s : Store) :
    Except CrmError (String × List Stage) × Store :=
  let existing := listStages agentId s
  if existing.length > 0 then (Except.ok ("already_initialized", existing), s)
  else
    match seedStages agentId now defaultStageSeeds s with
    | (Except.error e, s') => (Except.error e, s')
    | (Except.ok sts, s') => (Except.ok ("initialized", sts), s')

-- ============ EMBEDDED JOINS ============

/-- The joined display columns `crm_stages(name, color)` that every contact
select embeds. -/
structure StageEmbed where
  name : String
  color : Option String
deriving DecidableEq

/-- The joined display columns `crm_contacts(name, email, company)` that
every interaction and task select embeds. -/
structure ContactEmbed where
  name : String
  email : Option String
  company : Option String
deriving DecidableEq

/-- Resolve the `crm_stages(name, color)` embed: a foreign-key lookup over
the whole stages table — the join is NOT filtered by tenant. -/
def stageEmbed (s : Store) (sid : Option Nat) : Option StageEmbed :=
  match sid with
  | none => none
  | some i => (s.stages.find? (fun st => st.id == i)).map (fun st => ⟨st.name, st.color⟩)

/-- Resolve the `crm_contacts(name, email, company)` embed: a foreign-key
lookup over the whole contacts table — the join is NOT filtered by tenant. -/
def contactEmbed (s : Store) (cid : Option Nat) : Option ContactEmbed :=
  match cid with
  | none => none
  | some i => (s.contacts.find? (fun c => c.id == i)).map (fun c => ⟨c.name, c.email, c.company⟩)

/-- A contact row as returned by `select('*, crm_stages(name, color)')`. -/
structure ContactJoined where
  row : Contact
  crm_stages : Option StageEmbed
deriving DecidableEq

/-- An interaction row as returned by
`select('*, crm_contacts(name, email, company)')`. -/
structure InteractionJoined where
  row : Interaction
  crm_contacts : Option ContactEmbed
deriving DecidableEq

/-- A task row as returned by
`select('*, crm_contacts(name, email, company)')`. -/
structure TaskJoined where
  row : Task
  crm_contacts : Option ContactEmbed
deriving DecidableEq

def joinContact (s : Store) (c : Contact) : ContactJoined :=
  ⟨c, stageEmbed s c.stage_id⟩

def joinInteraction (s : Store) (i : Interaction) : InteractionJoined :=
  ⟨i, contactEmbed s (some i.contact_id)⟩

def joinTask (s : Store) (t : Task) : TaskJoined :=
  ⟨t, contactEmbed s t.contact_id⟩

-- ============ CONTACTS (db.js) ============

/-- Options object for `listContacts`. -/
structure ListContactsOptions where
  stageId : Option Nat := none
  isActive : Option Bool := none
  assignedTo : Option String := none
  tags : Option (List String) := none
  limit : Option Nat := none
  offset : Option Nat := none

/-- The option-driven part of the `listContacts` filter chain (each
`if (options.x)` guard uses JavaScript truthiness, except `isActive` which
is compared to `undefined`). -/
def contactOptsFilter (o : ListContactsOptions) (c : Contact) : Bool :=
  (if jsTruthyNat o.stageId then c.stage_id == o.stageId else true)
    && (match o.isActive with | some b => c.is_active == b | none => true)
    && (if jsTruthyStr o.assignedTo then c.assigned_to == o.assignedTo else true)
    && (match o.tags with
        | some ts => if ts.length > 0 then c.tags.any (fun t => ts.contains t) else true
        | none => true)

/-- The whole filter chain of `listContacts`: the tenant check and then the
option filters. -/
def contactFilter (agentId : String) (o : ListContactsOptions) (c : Contact) : Bool :=
  c.agent_id == agentId && contactOptsFilter o c

/-- Pagination tail of `listContacts`: `.limit(n)` when `options.limit` is
truthy, overridden by `.range(offset, offset + (limit || 20) - 1)` when
`options.offset` is truthy. -/
def paginate (limit offset : Option Nat) (l : List Contact) : List Contact :=
  if jsTruthyNat offset then
    (l.drop (offset.getD 0)).take (if jsTruthyNat limit then limit.getD 20 else 20)
  else if jsTruthyNat limit then l.take (limit.getD 20)
  else l

/-- `db.listContacts`: tenant-filtered, option-filtered, ordered by
`updated_at` descending, paginated, each row carrying its (tenant-unfiltered)
`crm_stages(name, color)` embed. -/
def listContacts (agentId : String) (o : ListContactsOptions) (s : Store) : List ContactJoined :=
  (paginate o.limit o.offset
    ((s.contacts.filter (contactFilter agentId o)).insertionSort contactRecencyGE)).map
      (joinContact s)

/-- Row predicate for `.eq('id', id).eq('agent_id', agentId)` on contacts. -/
def contactMatch (agentId : String) (id : Nat) (c : Contact) : Bool :=
  c.id == id && c.agent_id == agentId

/-- `db.getContact`: select the tenant's row with the given id (with its
tenant-unfiltered `crm_stages(name, color)` embed), `.single()`. -/
def getContact (agentId : String) (id : Nat) (s : Store) : Except CrmError ContactJoined :=
  match s.contacts.filter (contactMatch agentId id) with
  | [c] => Except.ok (joinContact s c)
  | [] => Except.error CrmError.notFound
  | _ => Except.error (CrmError.storeFailure "multiple rows")

/-- Input object for `createContact`. -/
structure ContactInput where
  name : Option String := none
  email : Option String := none
  phone : Option String := none
  company : Option String := none
  role : Option String := none
  stageId : Option Nat := none
  source : Option String := none
  sourceDetail : Option String := none
  assignedTo : Option String := none
  tags : Option (List String) := none
  customFields : Option (List (String × String)) := none
  dealValue : Option Int := none
  currency : Option String := none
  isActive : Option Bool := none

/-- The row inserted by `db.createContact`: stamped with the tenant id,
each optional field defaulted exactly as the JavaScript does (`x || null`,
`tags || []`, `currency || 'AUD'`, `isActive !== false`), and
`stage_entered_at` set to now exactly when a (truthy) stage id is supplied. -/
def contactRow (agentId : String) (inp : ContactInput) (now : Nat) (id : Nat) : Contact :=
  { id := id,
    agent_id := agentId,
    name := inp.name.getD "",
    email := jsOrNullStr inp.email,
    phone := jsOrNullStr inp.phone,
    company := jsOrNullStr inp.company,
    role := jsOrNullStr inp.role,
    stage_id := jsOrNullNat inp.stageId,
    stage_entered_at := if jsTruthyNat inp.stageId then some now else none,
    source := jsOrNullStr inp.source,
    source_detail := jsOrNullStr inp.sourceDetail,
    assigned_to := jsOrNullStr inp.assignedTo,
    tags := inp.tags.getD [],
    custom_fields := inp.customFields.getD [],
    deal_value := jsOrNullInt inp.dealValue,
    currency := jsStrOrD inp.currency "AUD",
    is_active := inp.isActive != some false,
    lost_reason := none,
    created_at := now,
    updated_at := now,
    last_contact_at := none }

/-- `db.createContact`: insert the contact row and return it. -/
def dbCreateContact (agentId : String) (inp : ContactInput) (now : Nat) (s : Store) :
    Except CrmError Contact × Store :=
  (Except.ok (contactRow agentId inp now s.nextContactId),
    { s with contacts := s.contacts ++ [contactRow agentId inp now s.nextContactId],
             nextContactId := s.nextContactId + 1 })

/-- Update object for `updateContact`.  An outer `none` means the key is
absent from the `updates` object; for nullable columns the inner option is
the value written (so `some none` writes SQL `null`). -/
structure ContactUpdate where
  name : Option String := none
  email : Option (Option String) := none
  phone : Option (Option String) := none
  company : Option (Option String) := none
  role : Option (Option String) := none
  stageId : Option (Option Nat) := none
  source : Option (Option String) := none
  sourceDetail : Option (Option String) := none
  assignedTo : Option (Option String) := none
  tags : Option (List String) := none
  customFields : Option (List (String × String)) := none
  dealValue : Option (Option Int) := none
  currency : Option String := none
  isActive : Option Bool := none
  lostReason : Option (Option String) := none
  lastContactAt : Option (Option Nat) := none

/-- Apply the column patch built by `updateContact`: the recognized keys of
the update object, mapped through `fieldMap`, plus an unconditional
`updated_at` refresh.  Unrecognized keys are ignored by construction. -/
def applyContactUpdate (u : ContactUpdate) (now : Nat) (c : Contact) : Contact :=
  { c with
    updated_at := now,
    name := u.name.getD c.name,
    email := u.email.getD c.email,
    phone := u.phone.getD c.phone,
    company := u.company.getD c.company,
    role := u.role.getD c.role,
    stage_id := u.stageId.getD c.stage_id,
    source := u.source.getD c.source,
    source_detail := u.sourceDetail.getD c.source_detail,
    assigned_to := u.assignedTo.getD c.assigned_to,
    tags := u.tags.getD c.tags,
    custom_fields := u.customFields.getD c.custom_fields,
    deal_value := u.dealValue.getD c.deal_value,
    currency := u.currency.getD c.currency,
    is_active := u.isActive.getD c.is_active,
    lost_reason := u.lostReason.getD c.lost_reason,
    last_contact_at := u.lastContactAt.getD c.last_contact_at }

/-- `db.updateContact`: patch the tenant's row with the given id (always
stamping `updated_at := now`) and return it via `.single()`. -/
def dbUpdateContact (agentId : String) (id : Nat) (u : ContactUpdate) (now : Nat) (s : Store) :
    Except CrmError Contact × Store :=
  match s.contacts.filter (contactMatch agentId id) with
  | [c] =>
      (Except.ok (applyContactUpdate u now c),
        { s with contacts :=
            s.contacts.map fun c =>
              if contactMatch agentId id c then applyContactUpdate u now c else c })
  | [] => (Except.error CrmError.notFound, s)
  | _ =>
      (Except.error (CrmError.storeFailure "multiple rows"),
        { s with contacts :=
            s.contacts.map fun c =>
              if contactMatch agentId id c then applyContactUpdate u now c else c })

/-- `db.moveContactStage`: one single update query that sets the stage
reference, the stage-entry timestamp and `updated_at` together. -/
def moveContactStage (agentId : String) (id stageId : Nat) (now : Nat) (s : Store) :
    Except CrmError Contact × Store :=
  match s.contacts.filter (contactMatch agentId id) with
  | [c] =>
      (Except.ok { c with stage_id := some stageId, stage_entered_at := some now, updated_at := now },
        { s with contacts :=
            s.contacts.map fun c =>
              if contactMatch agentId id c then
                { c with stage_id := some stageId, stage_entered_at := some now, updated_at := now }
              else c })
  | [] => (Except.error CrmError.notFound, s)
  | _ =>
      (Except.error (CrmError.storeFailure "multiple rows"),
        { s with contacts :=
            s.contacts.map fun c =>
              if contactMatch agentId id c then
                { c with stage_id := some stageId, stage_entered_at := some now, updated_at := now }
              else c })

/-- Does the interaction reference one of the given (deleted) contacts? -/
def interactionRefsDeleted (deleted : List Contact) (i : Interaction) : Bool :=
  deleted.any (fun c => i.contact_id == c.id)

/-- Does the task reference one of the given (deleted) contacts? -/
def taskRefsDeleted (deleted : List Contact) (t : Task) : Bool :=
  match t.contact_id with
  | some cid => deleted.any (fun c => cid == c.id)
  | none => false

/-- `db.deleteContact`: delete the tenant's row with the given id.  The
schema's `on delete cascade` referential action then removes every
interaction and task — of any tenant — that referenced a deleted contact
(this runs inside the database engine, not as a tenant-scoped query). -/
def deleteContact (agentId : String) (id : Nat) (s : Store) : Store :=
  let deleted := s.contacts.filter (contactMatch agentId id)
  { s with
    contacts := s.contacts.filter (fun c => !(contactMatch agentId id c)),
    interactions := s.interactions.filter (fun i => !(interactionRefsDeleted deleted i)),
    tasks := s.tasks.filter (fun t => !(taskRefsDeleted deleted t)) }

/-- Case-insensitive substring test, modelling SQL `ilike '%q%'` on a
nullable column (`null` never matches). -/
def ilikeContains (fld : Option String) (q : String) : Bool :=
  match fld with
  | none => false
  | some v =>
      (List.range (v.length + 1)).any fun i =>
        q.toLower.toList.isPrefixOf (v.toLower.toList.drop i)

/-- The `.or(...)` disjunction of `searchContacts`. -/
def searchMatch (q : String) (c : Contact) : Bool :=
  ilikeContains (some c.name) q || ilikeContains c.email q
    || ilikeContains c.company q || ilikeContains c.phone q

/-- `db.searchContacts`: tenant-filtered text search ordered by recency,
with an optional result cap, each row carrying its (tenant-unfiltered)
`crm_stages(name, color)` embed. -/
def searchContacts (agentId : String) (q : String) (limit : Option Nat) (s : Store) :
    List ContactJoined :=
  let res := (s.contacts.filter
      (fun c => c.agent_id == agentId && searchMatch q c)).insertionSort contactRecencyGE
  (if jsTruthyNat limit then res.take (limit.getD 0) else res).map (joinContact s)

-- ============ INTERACTIONS (db.js) ============

/-- Options object for `listInteractions`. -/
structure ListInteractionsOptions where
  contactId : Option Nat := none
  itype : Option String := none
  limit : Option Nat := none

/-- The option-driven part of the `listInteractions` filter chain. -/
def interactionOptsFilter (o : ListInteractionsOptions) (i : Interaction) : Bool :=
  (if jsTruthyNat o.contactId then i.contact_id == o.contactId.getD 0 else true)
    && (if jsTruthyStr o.itype then i.itype == o.itype.getD "" else true)

/-- `db.listInteractions`: tenant-filtered, option-filtered, newest first,
each row carrying its (tenant-unfiltered) `crm_contacts(...)` embed. -/
def listInteractions (agentId : String) (o : ListInteractionsOptions) (s : Store) :
    List InteractionJoined :=
  let res := (s.interactions.filter fun i =>
      i.agent_id == agentId && interactionOptsFilter o i).insertionSort interactionRecencyGE
  (if jsTruthyNat o.limit then res.take (o.limit.getD 0) else res).map (joinInteraction s)

/-- Input object for `addInteraction`. -/
structure InteractionInput where
  contactId : Option Nat := none
  itype : Option String := none
  subject : Option String := none
  content : Option String := none
  createdBy : Option String := none
  createdByType : Option String := none
  scheduledAt : Option Nat := none
  completedAt : Option Nat := none
  metadata : Option (List (String × String)) := none

/-- The row inserted by `db.addInteraction`, stamped with the tenant id. -/
def interactionRow (agentId : String) (inp : InteractionInput) (now : Nat) (id : Nat) :
    Interaction :=
  { id := id,
    agent_id := agentId,
    contact_id := inp.contactId.getD 0,
    itype := inp.itype.getD "",
    subject := jsOrNullStr inp.subject,
    content := jsOrNullStr inp.content,
    created_by := inp.createdBy.getD "",
    created_by_type := jsStrOrD inp.createdByType "agent",
    scheduled_at := jsOrNullNat inp.scheduledAt,
    completed_at := jsOrNullNat inp.completedAt,
    metadata := inp.metadata.getD [],
    created_at := now }

/-- `db.addInteraction`: insert the interaction row, then — as a second,
separate write — refresh the parent contact's `last_contact_at` through
`updateContact`.  A failure of that second write fails the whole call, but
the inserted interaction stays in the store. -/
def dbAddInteraction (agentId : String) (inp : InteractionInput) (now : Nat) (s : Store) :
    Except CrmError Interaction × Store :=
  let row := interactionRow agentId inp now s.nextInteractionId
  let s1 := { s with interactions := s.interactions ++ [row],
                     nextInteractionId := s.nextInteractionId + 1 }
  match dbUpdateContact agentId (inp.contactId.getD 0) { lastContactAt := some (some now) } now s1 with
  | (Except.error e, s2) => (Except.error e, s2)
  | (Except.ok _, s2) => (Except.ok row, s2)

/-- Update object for `updateInteraction` (recognized keys of its `fieldMap`). -/
structure InteractionUpdate where
  itype : Option String := none
  subject : Option (Option String) := none
  content : Option (Option String) := none
  scheduledAt : Option (Option Nat) := none
  completedAt : Option (Option Nat) := none
  metadata : Option (List (String × String)) := none

/-- Apply the column patch built by `updateInteraction` (no timestamp stamp). -/
def applyInteractionUpdate (u : InteractionUpdate) (i : Interaction) : Interaction :=
  { i with
    itype := u.itype.getD i.itype,
    subject := u.subject.getD i.subject,
    content := u.content.getD i.content,
    scheduled_at := u.scheduledAt.getD i.scheduled_at,
    completed_at := u.completedAt.getD i.completed_at,
    metadata := u.metadata.getD i.metadata }

/-- Row predicate for `.eq('id', id).eq('agent_id', agentId)` on interactions. -/
def interactionMatch (agentId : String) (id : Nat) (i : Interaction) : Bool :=
  i.id == id && i.agent_id == agentId

/-- `db.updateInteraction`. -/
def updateInteraction (agentId : String) (id : Nat) (u : InteractionUpdate) (s : Store) :
    Except CrmError Interaction × Store :=
  match s.interactions.filter (interactionMatch agentId id) with
  | [i] =>
      (Except.ok (applyInteractionUpdate u i),
        { s with interactions :=
            s.interactions.map fun i =>
              if interactionMatch agentId id i then applyInteractionUpdate u i else i })
  | [] => (Except.error CrmError.notFound, s)
  | _ =>
      (Except.error (CrmError.storeFailure "multiple rows"),
        { s with interactions :=
            s.interactions.map fun i =>
              if interactionMatch agentId id i then applyInteractionUpdate u i else i })

/-- `db.deleteInteraction`. -/
def deleteInteraction (agentId : String) (id : Nat) (s : Store) : Store :=
  { s with interactions := s.interactions.filter (fun i => !(interactionMatch agentId id i)) }

-- ============ TASKS (db.js) ============

/-- Options object for `listTasks`. -/
structure ListTasksOptions where
  contactId : Option Nat := none
  completed : Option Bool := none
  assignedTo : Option String := none
  priority : Option String := none
  dueBefore : Option Nat := none
  limit : Option Nat := none

/-- The option-driven part of the `listTasks` filter chain. -/
def taskOptsFilter (o : ListTasksOptions) (t : Task) : Bool :=
  (if jsTruthyNat o.contactId then t.contact_id == o.contactId else true)
    && (match o.completed with | some b => t.completed == b | none => true)
    && (if jsTruthyStr o.assignedTo then t.assigned_to == o.assignedTo else true)
    && (if jsTruthyStr o.priority then t.priority == o.priority.getD "" else true)
    && (match o.dueBefore with
        | some d => (match t.due_at with | some x => x ≤ d | none => false)
        | none => true)

/-- `db.listTasks`: tenant-filtered, option-filtered, incomplete first and
then by due date (null due dates last), each row carrying its
(tenant-unfiltered) `crm_contacts(...)` embed. -/
def listTasks (agentId : String) (o : ListTasksOptions) (s : Store) : List TaskJoined :=
  let res := (s.tasks.filter fun t =>
      t.agent_id == agentId && taskOptsFilter o t).insertionSort taskLE
  (if jsTruthyNat o.limit then res.take (o.limit.getD 0) else res).map (joinTask s)

/-- Input object for `addTask`. -/
structure TaskInput where
  contactId : Option Nat := none
  title : Option String := none
  description : Option String := none
  dueAt : Option Nat := none
  assignedTo : Option String := none
  priority : Option String := none

/-- The row inserted by `db.addTask`, stamped with the tenant id. -/
def taskRow (agentId : String) (inp : TaskInput) (now : Nat) (id : Nat) : Task :=
  { id := id,
    agent_id := agentId,
    contact_id := jsOrNullNat inp.contactId,
    title := inp.title.getD "",
    description := jsOrNullStr inp.description,
    due_at := jsOrNullNat inp.dueAt,
    assigned_to := jsOrNullStr inp.assignedTo,
    priority := jsStrOrD inp.priority "medium",
    completed := false,
    completed_at := none,
    created_at := now }

/-- `db.addTask`: insert the task row and return it. -/
def dbAddTask (agentId : String) (inp : TaskInput) (now : Nat) (s : Store) :
    Except CrmError Task × Store :=
  (Except.ok (taskRow agentId inp now s.nextTaskId),
    { s with tasks := s.tasks ++ [taskRow agentId inp now s.nextTaskId],
             nextTaskId := s.nextTaskId + 1 })

/-- Row predicate for `.eq('id', id).eq('agent_id', agentId)` on tasks. -/
def taskMatch (agentId : String) (id : Nat) (t : Task) : Bool :=
  t.id == id && t.agent_id == agentId

/-- `db.completeTask`: set `completed := true` and stamp `completed_at`
together in one update, `.single()`. -/
def completeTask (agentId : String) (id : Nat) (now : Nat) (s : Store) :
    Except CrmError Task × Store :=
  match s.tasks.filter (taskMatch agentId id) with
  | [t] =>
      (Except.ok { t with completed := true, completed_at := some now },
        { s with tasks :=
            s.tasks.map fun t =>
              if taskMatch agentId id t then { t with completed := true, completed_at := some now }
              else t })
  | [] => (Except.error CrmError.notFound, s)
  | _ =>
      (Except.error (CrmError.storeFailure "multiple rows"),
        { s with tasks :=
            s.tasks.map fun t =>
              if taskMatch agentId id t then { t with completed := true, completed_at := some now }
              else t })

/-- `db.uncompleteTask`: clear both `completed` and `completed_at` in one
update, `.single()`. -/
def uncompleteTask (agentId : String) (id : Nat) (s : Store) :
    Except CrmError Task × Store :=
  match s.tasks.filter (taskMatch agentId id) with
  | [t] =>
      (Except.ok { t with completed := false, completed_at := none },
        { s with tasks :=
            s.tasks.map fun t =>
              if taskMatch agentId id t then { t with completed := false, completed_at := none }
              else t })
  | [] => (Except.error CrmError.notFound, s)
  | _ =>
      (Except.error (CrmError.storeFailure "multiple rows"),
        { s with tasks :=
            s.tasks.map fun t =>
              if taskMatch agentId id t then { t with completed := false, completed_at := none }
              else t })

/-- Update object for `updateTask` (recognized keys of its `fieldMap`). -/
structure TaskUpdate where
  title : Option String := none
  description : Option (Option String) := none
  dueAt : Option (Option Nat) := none
  assignedTo : Option (Option String) := none
  priority : Option String := none
  contactId : Option (Option Nat) := none

/-- Apply the column patch built by `updateTask`. -/
def applyTaskUpdate (u : TaskUpdate) (t : Task) : Task :=
  { t with
    title := u.title.getD t.title,
    description := u.description.getD t.description,
    due_at := u.dueAt.getD t.due_at,
    assigned_to := u.assignedTo.getD t.assigned_to,
    priority := u.priority.getD t.priority,
    contact_id := u.contactId.getD t.contact_id }

/-- `db.updateTask`. -/
def updateTask (agentId : String) (id : Nat) (u : TaskUpdate) (s : Store) :
    Except CrmError Task × Store :=
  match s.tasks.filter (taskMatch agentId id) with
  | [t] =>
      (Except.ok (applyTaskUpdate u t),
        { s with tasks :=
            s.tasks.map fun t =>
              if taskMatch agentId id t then applyTaskUpdate u t else t })
  | [] => (Except.error CrmError.notFound, s)
  | _ =>
      (Except.error (CrmError.storeFailure "multiple rows"),
        { s with tasks :=
            s.tasks.map fun t =>
              if taskMatch agentId id t then applyTaskUpdate u t else t })

/-- `db.deleteTask`. -/
def deleteTask (agentId : String) (id : Nat) (s : Store) : Store :=
  { s with tasks := s.tasks.filter (fun t => !(taskMatch agentId id t)) }

/-- The overdue condition of `db.getOverdueTask`. -/
def overdueFilter (now : Nat) (t : Task) : Bool :=
  t.completed == false && (match t.due_at with | some d => d < now | none => false)

/-- `db.getOverdueTask`: incomplete tasks of the tenant strictly past due,
each row carrying its (tenant-unfiltered) `crm_contacts(...)` embed. -/
def getOverdueTasks (agentId : String) (now : Nat) (s : Store) : List TaskJoined :=
  ((s.tasks.filter fun t =>
      t.agent_id == agentId && overdueFilter now t).insertionSort taskLE).map (joinTask s)

-- ============ STATS (db.js) ============

/-- Numeric contribution of a contact's deal value:
`parseFloat(c.deal_value) || 0` treats `null` as zero. -/
def contribution (c : Contact) : Int :=
  match c.deal_value with
  | some v => v
  | none => 0

/-- One row of the pipeline report. -/
structure PipelineBucket where
  id : Option Nat
  name : String
  color : Option String
  position : Int
  count : Nat
  value : Int
deriving DecidableEq

/-- Result of `getPipelineStats`. -/
structure PipelineStats where
  stages : List PipelineBucket
  totalContacts : Nat
  totalValue : Int
deriving DecidableEq

/-- The JavaScript guard `!c.stage_id` (null — or the impossible 0 — means unstaged). -/
def isUnstaged (c : Contact) : Bool :=
  match c.stage_id with
  | none => true
  | some v => v == 0

/-- `db.getPipelineStats`: one query for the tenant's stages, one for its
active contacts, then an in-memory rollup: per stage the count and summed
deal value of its active contacts, an "Unstaged" bucket prepended when at
least one active contact is unstaged, and grand totals over all active
contacts. -/
def getPipelineStats (agentId : String) (s : Store) : PipelineStats :=
  let stages := listStages agentId s
  let contacts := s.contacts.filter (fun c => c.agent_id == agentId && c.is_active)
  let pipeline := stages.map fun st =>
    let sc := contacts.filter (fun c => c.stage_id == some st.id)
    { id := some st.id, name := st.name, color := st.color, position := st.position,
      count := sc.length, value := (sc.map contribution).sum : PipelineBucket }
  let unstaged := contacts.filter isUnstaged
  let pipeline2 :=
    if unstaged.length > 0 then
      ({ id := none, name := "Unstaged", color := some "#888888", position := 0,
         count := unstaged.length, value := (unstaged.map contribution).sum : PipelineBucket })
        :: pipeline
    else pipeline
  { stages := pipeline2,
    totalContacts := contacts.length,
    totalValue := (contacts.map contribution).sum }

-- ============ CRM facade (crm.js) ============

/-- `CRM.createContact`: require a (truthy) name, then insert. -/
def crmCreateContact (agentId : String) (inp : ContactInput) (now : Nat) (s : Store) :
    Except CrmError Contact × Store :=
  if !(jsTruthyStr inp.name) then (Except.error (CrmError.missingField "Contact name"), s)
  else dbCreateContact agentId inp now s

/-- `CRM.addInteraction`: require truthy `contactId`, `type` and `createdBy`
— each check throws before any store call — then delegate to the database
layer. -/
def crmAddInteraction (agentId : String) (inp : InteractionInput) (now : Nat) (s : Store) :
    Except CrmError Interaction × Store :=
  if !(jsTruthyNat inp.contactId) then (Except.error (CrmError.missingField "Contact ID"), s)
  else if !(jsTruthyStr inp.itype) then
    (Except.error (CrmError.missingField "Interaction type"), s)
  else if !(jsTruthyStr inp.createdBy) then (Except.error (CrmError.missingField "Created by"), s)
  else dbAddInteraction agentId inp now s

/-- `CRM.addTask`: require a (truthy) title, then insert. -/
def crmAddTask (agentId : String) (inp : TaskInput) (now : Nat) (s : Store) :
    Except CrmError Task × Store :=
  if !(jsTruthyStr inp.title) then (Except.error (CrmError.missingField "Task title"), s)
  else dbAddTask agentId inp now s

/-- `CRM.markLost`: shorthand for an update clearing the active flag and
setting the lost reason. -/
def markLost (agentId : String) (id : Nat) (reason : Option String) (now : Nat) (s : Store) :
    Except CrmError Contact × Store :=
  dbUpdateContact agentId id { isActive := some false, lostReason := some reason } now s

/-- The tenant's slice of the store: what the four tables hold for one
agent id.  Cross-tenant isolation says every operation bound to a
different tenant leaves this slice intact. -/
structure TenantData where
  stages : List Stage
  contacts : List Contact
  interactions : List Interaction
  tasks : List Task
deriving DecidableEq

/-- Project the store onto one tenant. -/
def tenantView (agentId : String) (s : Store) : TenantData :=
  { stages := s.stages.filter (fun st => st.agent_id == agentId),
    contacts := s.contacts.filter (fun c => c.agent_id == agentId),
    interactions := s.interactions.filter (fun i => i.agent_id == agentId),
    tasks := s.tasks.filter (fun t => t.agent_id == agentId) }

instance {e a : Type} [DecidableEq e] [DecidableEq a] : DecidableEq (Except e a) := fun x y =>
  match x, y with
  | Except.ok u, Except.ok v =>
      if h : u = v then isTrue (by rw [h]) else isFalse (by intro hh; cases hh; exact h rfl)
  | Except.error u, Except.error v =>
      if h : u = v then isTrue (by rw [h]) else isFalse (by intro hh; cases hh; exact h rfl)
  | Except.ok _, Except.error _ => isFalse (by intro hh; cases hh)
  | Except.error _, Except.ok _ => isFalse (by intro hh; cases hh)

/-- The empty store. -/
def emptyStore : Store :=
  { stages := [], contacts := [], interactions := [], tasks := [],
    nextStageId := 1, nextContactId := 1, nextInteractionId := 1, nextTaskId := 1 }

-- ============ Generic list helpers ============

/-- A conditional in-place map leaves a filter untouched when rows kept by
the filter are never rewritten and rewriting never makes a row enter it. -/
theorem filter_map_cond {a : Type} (p q : a → Bool) (f : a → a)
    (h1 : ∀ x, p x = true → q x = false)
    (h2 : ∀ x, q x = true → p (f x) = false) :
    ∀ l : List a, (l.map (fun x => if q x then f x else x)).filter p = l.filter p := by
  intro l
  induction l with
  | nil => rfl
  | cons x t ih =>
      cases hq : q x with
      | true =>
          have hpx : p x = false := by
            cases hp : p x with
            | false => rfl
            | true => rw [h1 x hp] at hq; cases hq
          simp [List.filter_cons, hq, h2 x hq, hpx, ih]
      | false =>
          cases hp : p x with
          | true => simp [List.filter_cons, hq, hp, ih]
          | false => simp [List.filter_cons, hq, hp, ih]

/-- Removing rows that the filter would not keep anyway does not change it. -/
theorem filter_filter_keep {a : Type} (p keep : a → Bool)
    (h : ∀ x, p x = true → keep x = true) :
    ∀ l : List a, (l.filter keep).filter p = l.filter p := by
  intro l
  induction l with
  | nil => rfl
  | cons x t ih =>
      cases hk : keep x with
      | true =>
          cases hp : p x with
          | true => simp [List.filter_cons, hk, hp, ih]
          | false => simp [List.filter_cons, hk, hp, ih]
      | false =>
          have hp : p x = false := by
            cases hp : p x with
            | false => rfl
            | true => rw [h x hp] at hk; cases hk
          simp [List.filter_cons, hk, hp, ih]

/-- Appending a row the filter rejects does not change the filter. -/
theorem filter_append_reject {a : Type} (p : a → Bool) (l : List a) (x : a)
    (h : p x = false) : (l ++ [x]).filter p = l.filter p := by
  simp [List.filter_append, h]

/-- When a projection of the list is duplicate-free, the filter for a
predicate that pins that projection returns exactly the one matching row. -/
theorem filter_eq_singleton_of_nodup_key {a b : Type} (f : a → b) (p : a → Bool)
    {l : List a} {x : a} (hnd : (l.map f).Nodup) (hx : x ∈ l) (hpx : p x = true)
    (hkey : ∀ y, p y = true → f y = f x) : l.filter p = [x] := by
  induction l with
  | nil => cases hx
  | cons z t ih =>
      rw [List.map_cons] at hnd
      have hpair := List.nodup_cons.mp hnd
      have hzn : f z ∉ t.map f := hpair.1
      have hnd' : (t.map f).Nodup := hpair.2
      cases hpz : p z with
      | true =>
          have hfz : f z = f x := hkey z hpz
          rcases List.mem_cons.mp hx with hx1 | hx1
          · subst hx1
            have ht : t.filter p = [] := by
              rw [List.filter_eq_nil_iff]
              intro y hy hpy
              exact hzn (by rw [← hkey y hpy]; exact List.mem_map_of_mem f hy)
            simp [List.filter_cons, hpz, ht]
          · exact absurd (hfz ▸ List.mem_map_of_mem f hx1) hzn
      | false =>
          have hzx : z ≠ x := fun h => by rw [h, hpx] at hpz; cases hpz
          have hx' : x ∈ t := by
            rcases List.mem_cons.mp hx with hx1 | hx1
            · exact absurd hx1.symm hzx
            · exact hx1
          simp only [List.filter_cons, hpz]
          simp only [Bool.false_eq_true, if_false]
          exact ih hnd' hx'

/-- Summing a mapped value over a filter whose predicate is a disjunction of
two pointwise-incompatible predicates splits into the two sums. -/
theorem sum_filter_or_disjoint {a M : Type} [AddCommMonoid M] (f : a → M) (p q : a → Bool)
    (hdisj : ∀ x, ¬(p x = true ∧ q x = true)) :
    ∀ l : List a,
      ((l.filter (fun x => p x || q x)).map f).sum
        = ((l.filter p).map f).sum + ((l.filter q).map f).sum := by
  intro l
  induction l with
  | nil => simp
  | cons x t ih =>
      cases hp : p x with
      | true =>
          have hq : q x = false := by
            cases hq : q x with
            | false => rfl
            | true => exact absurd ⟨hp, hq⟩ (hdisj x)
          simp [List.filter_cons, hp, hq, ih, add_assoc]
      | false =>
          cases hq : q x with
          | true =>
              simp only [List.filter_cons, hp, hq, Bool.false_or, if_pos rfl,
                Bool.false_eq_true, if_false, if_true, List.map_cons, List.sum_cons, ih]
              rw [add_left_comm]
          | false => simp [List.filter_cons, hp, hq, ih]

/-- Summing one bucket per key over pairwise-distinct keys equals the sum
over the union of the buckets. -/
theorem sum_buckets {M : Type} [AddCommMonoid M] (f : Contact → M) :
    ∀ (ids : List Nat), ids.Nodup → ∀ l : List Contact,
      (ids.map (fun i => ((l.filter (fun c => c.stage_id == some i)).map f).sum)).sum
        = ((l.filter (fun c =>
            match c.stage_id with
            | some v => ids.contains v
            | none => false)).map f).sum := by
  intro ids
  induction ids with
  | nil =>
      intro _ l
      have : l.filter (fun c =>
          match c.stage_id with
          | some v => ([] : List Nat).contains v
          | none => false) = [] := by
        rw [List.filter_eq_nil_iff]
        intro c _ hc
        cases hs : c.stage_id with
        | none => rw [hs] at hc; cases hc
        | some v => rw [hs] at hc; simp at hc
      rw [this]
      simp
  | cons i rest ih =>
      intro hnd l
      have hi : i ∉ rest := (List.nodup_cons.mp hnd).1
      have hrest : rest.Nodup := (List.nodup_cons.mp hnd).2
      have hcong : l.filter (fun c =>
            match c.stage_id with
            | some v => (i :: rest).contains v
            | none => false)
          = l.filter (fun c =>
              (c.stage_id == some i)
                || (match c.stage_id with
                    | some v => rest.contains v
                    | none => false)) := by
        apply List.filter_congr
        intro c _
        cases hsid : c.stage_id with
        | none => simp
        | some v =>
            by_cases hv : v = i
            · subst hv; simp
            · simp only [List.contains_cons]
              have hbe : (v == i) = false := by simpa using hv
              simp [hbe]
      have hdisj : ∀ c : Contact, ¬((c.stage_id == some i) = true ∧
          (match c.stage_id with
           | some v => rest.contains v
           | none => false) = true) := by
        intro c hand
        have hsid : c.stage_id = some i := by have := hand.1; simp only [beq_iff_eq] at this; exact this
        have h2 := hand.2
        rw [hsid] at h2
        exact hi (by simpa using h2)
      rw [List.map_cons, List.sum_cons, hcong,
        sum_filter_or_disjoint f _ _ hdisj l, ih hrest l]

/-- Mapping the constant 1 and summing counts the list. -/
theorem sum_map_one {a : Type} : ∀ l : List a, (l.map (fun _ => (1 : Nat))).sum = l.length := by
  intro l
  induction l with
  | nil => rfl
  | cons x t ih => simp [ih, Nat.add_comm]

-- ============ C3: initializeDefaultStages is idempotent ============

/-- The rows inserted by the seeding loop, starting from serial id `k`. -/
def seedRows (A : String) (now : Nat) : Nat → List (String × Int × String) → List Stage
  | _, [] => []
  | k, (n, p, c) :: rest =>
      { id := k, agent_id := A, name := n, position := p, color := jsOrNullStr (some c),
        created_at := now } :: seedRows A now (k + 1) rest

theorem seedRows_agent (A : String) (now : Nat) :
    ∀ (seeds : List (String × Int × String)) (k : Nat) (st : Stage),
      st ∈ seedRows A now k seeds → st.agent_id = A := by
  intro seeds
  induction seeds with
  | nil => intro k st h; cases h
  | cons x rest ih =>
      intro k st h
      rcases List.mem_cons.mp h with h1 | h1
      · rw [h1]
      · exact ih (k + 1) st h1

theorem seedStages_eq (A : String) (now : Nat) :
    ∀ (seeds : List (String × Int × String)) (s : Store),
      (∀ x ∈ seeds, jsTruthyStr (some x.1) = true) →
      seedStages A now seeds s =
        (Except.ok (seedRows A now s.nextStageId seeds),
          { s with stages := s.stages ++ seedRows A now s.nextStageId seeds,
                   nextStageId := s.nextStageId + seeds.length }) := by
  intro seeds
  induction seeds with
  | nil =>
      intro s _
      cases s
      simp [seedStages, seedRows]
  | cons x rest ih =>
      intro s hnames
      obtain ⟨n, p, c⟩ := x
      have hn : jsTruthyStr (some n) = true := hnames _ (List.mem_cons_self _ _)
      have hrest : ∀ x ∈ rest, jsTruthyStr (some x.1) = true :=
        fun x hx => hnames x (List.mem_cons_of_mem _ hx)
      simp only [seedStages, crmCreateStage, hn, Bool.not_true, Bool.false_eq_true, if_false,
        dbCreateStage, Option.getD_some, ih _ hrest, seedRows]
      simp [List.append_assoc, Nat.add_assoc, Nat.add_comm 1 rest.length]

/-- What C3 asserts: on a tenant that already has stages the call returns
them untouched with status `already_initialized` and performs no writes;
on a fresh tenant it seeds the six fixed stages (fixed names, positions and
colors, in order) with status `initialized`, and a second call returns the
same six stages unchanged with the distinguishing status. -/
def InitStagesIdempotent (A : String) (now now2 : Nat) (s : Store) : Prop :=
  (∀ s1 : Store, s1.stages.filter (fun st => st.agent_id == A) ≠ [] →
      initializeDefaultStages A now2 s1 =
        (Except.ok ("already_initialized", listStages A s1), s1)) ∧
  (initializeDefaultStages A now s).1 =
      Except.ok ("initialized", seedRows A now s.nextStageId defaultStageSeeds) ∧
  (seedRows A now s.nextStageId defaultStageSeeds).map
      (fun st => (st.name, st.position, st.color)) =
    [("Lead", (1 : Int), some "#6366f1"), ("Contacted", 2, some "#8b5cf6"),
     ("Qualified", 3, some "#a855f7"), ("Proposal", 4, some "#d946ef"),
     ("Negotiation", 5, some "#ec4899"), ("Won", 6, some "#22c55e")] ∧
  initializeDefaultStages A now2 (initializeDefaultStages A now s).2 =
    (Except.ok ("already_initialized", seedRows A now s.nextStageId defaultStageSeeds),
      (initializeDefaultStages A now s).2)

/-- C3: `initializeDefaultStages` is idempotent at the tenant level: with any
existing stage it returns the existing set untouched with status
`already_initialized` and writes nothing; on a fresh tenant it seeds
exactly the six fixed stages in order and a second call returns the same
six unchanged with the distinguishing status. -/
theorem initializeDefaultStages_idempotent (A : String) (now now2 : Nat) (s : Store)
    (hfresh : s.stages.filter (fun st => st.agent_id == A) = []) :
    InitStagesIdempotent A now now2 s := by
  have halready : ∀ s1 : Store, s1.stages.filter (fun st => st.agent_id == A) ≠ [] →
      initializeDefaultStages A now2 s1 =
        (Except.ok ("already_initialized", listStages A s1), s1) := by
    intro s1 hne
    have hlen : (listStages A s1).length > 0 := by
      rw [listStages, List.length_insertionSort]
      cases hl : s1.stages.filter (fun st => st.agent_id == A) with
      | nil => exact absurd hl hne
      | cons y ys => simp
    simp [initializeDefaultStages, if_pos hlen]
  have hnames : ∀ x ∈ defaultStageSeeds, jsTruthyStr (some x.1) = true := by decide
  have h0 : listStages A s = [] := by rw [listStages, hfresh]; rfl
  have hseeded : initializeDefaultStages A now s =
      (Except.ok ("initialized", seedRows A now s.nextStageId defaultStageSeeds),
        { s with stages := s.stages ++ seedRows A now s.nextStageId defaultStageSeeds,
                 nextStageId := s.nextStageId + defaultStageSeeds.length }) := by
    rw [initializeDefaultStages]
    rw [h0]
    simp only [List.length_nil, gt_iff_lt, lt_irrefl, if_false]
    rw [seedStages_eq A now defaultStageSeeds s hnames]
  refine ⟨halready, by rw [hseeded], ?_, ?_⟩
  · simp [seedRows, defaultStageSeeds]
    refine ⟨?_, ?_, ?_, ?_, ?_, ?_⟩ <;> decide
  · rw [hseeded]
    have hfilter : (s.stages ++ seedRows A now s.nextStageId defaultStageSeeds).filter
        (fun st => st.agent_id == A) = seedRows A now s.nextStageId defaultStageSeeds := by
      rw [List.filter_append, hfresh, List.nil_append, List.filter_eq_self]
      intro st hst
      simp [seedRows_agent A now defaultStageSeeds s.nextStageId st hst]
    have hsorted : List.Sorted stageLE (seedRows A now s.nextStageId defaultStageSeeds) := by
      simp only [seedRows, defaultStageSeeds, List.sorted_cons, List.mem_cons, stageLE]
      norm_num
    have hlist : listStages A { s with
        stages := s.stages ++ seedRows A now s.nextStageId defaultStageSeeds,
        nextStageId := s.nextStageId + defaultStageSeeds.length } =
        seedRows A now s.nextStageId defaultStageSeeds := by
      rw [listStages]
      simp only [hfilter]
      exact hsorted.insertionSort_eq
    rw [initializeDefaultStages]
    rw [hlist]
    simp [seedRows, defaultStageSeeds]

/-- Witness for C3 at a concrete fresh tenant. -/
theorem initializeDefaultStages_idempotent_witness :
    emptyStore.stages.filter (fun st => st.agent_id == "a") = [] ∧
      InitStagesIdempotent "a" 1 2 emptyStore :=
  ⟨rfl, initializeDefaultStages_idempotent "a" 1 2 emptyStore rfl⟩

-- ============ C9: createContact collapses a zero deal value to null ============

/-- C9: a contact created with `dealValue = 0` is stored exactly as one
created with no deal value at all (`contact.dealValue || null` collapses the
falsy 0 to null), its stored `deal_value` is null, and it contributes zero
to pipeline value sums. -/
theorem createContact_zero_dealValue_is_null (A : String) (inp : ContactInput) (now : Nat)
    (s : Store) :
    dbCreateContact A { inp with dealValue := some 0 } now s
        = dbCreateContact A { inp with dealValue := none } now s ∧
    ∃ c s2, dbCreateContact A { inp with dealValue := some 0 } now s = (Except.ok c, s2) ∧
      c.deal_value = none ∧ contribution c = 0 := by
  constructor
  · simp [dbCreateContact, contactRow, jsOrNullInt]
  · refine ⟨_, _, rfl, ?_, ?_⟩ <;> simp [dbCreateContact, contactRow, jsOrNullInt, contribution]

-- ============ C5: addInteraction validation ============

/-- C5: `CRM.addInteraction` rejects a missing (falsy) `contactId`, `type`
or `createdBy` with a `missingField` error naming the missing field, and
the store is returned exactly as it was — the error is thrown before any
store call. -/
theorem addInteraction_missing_field_validation (A : String) (inp : InteractionInput)
    (now : Nat) (s : Store) :
    (jsTruthyNat inp.contactId = false →
        crmAddInteraction A inp now s = (Except.error (CrmError.missingField "Contact ID"), s)) ∧
    (jsTruthyNat inp.contactId = true → jsTruthyStr inp.itype = false →
        crmAddInteraction A inp now s =
          (Except.error (CrmError.missingField "Interaction type"), s)) ∧
    (jsTruthyNat inp.contactId = true → jsTruthyStr inp.itype = true →
        jsTruthyStr inp.createdBy = false →
        crmAddInteraction A inp now s = (Except.error (CrmError.missingField "Created by"), s)) := by
  refine ⟨fun h1 => ?_, fun h1 h2 => ?_, fun h1 h2 h3 => ?_⟩
  · simp [crmAddInteraction, h1]
  · simp [crmAddInteraction, h1, h2]
  · simp [crmAddInteraction, h1, h2, h3]

/-- Witness for C5: a concrete call with `createdBy` missing fails with the
named `missingField` error and writes nothing. -/
theorem addInteraction_missing_field_validation_witness :
    crmAddInteraction "a" { contactId := some 1, itype := some "call" } 5 emptyStore
      = (Except.error (CrmError.missingField "Created by"), emptyStore) :=
  (addInteraction_missing_field_validation "a"
      { contactId := some 1, itype := some "call" } 5 emptyStore).2.2 rfl rfl rfl

-- ============ C8: task completion round-trip ============

/-- What C8 asserts about the `addTask` / `completeTask` / `uncompleteTask`
sequence. -/
def TaskRoundTrip (A : String) (inp : TaskInput) (now1 now2 : Nat) (s : Store) : Prop :=
  ∃ t1 s1 t2 s2 t3 s3,
    crmAddTask A inp now1 s = (Except.ok t1, s1) ∧
    t1.completed = false ∧ t1.completed_at = none ∧
    completeTask A t1.id now2 s1 = (Except.ok t2, s2) ∧
    t2.completed = true ∧ t2.completed_at = some now2 ∧
    uncompleteTask A t2.id s2 = (Except.ok t3, s3) ∧
    t3.completed = false ∧ t3.completed_at = none ∧
    s3.tasks = s.tasks ++ [t3]

/-- C8: for a task created with a title, `completeTask` sets the completed
flag and stamps the completion time together, and `uncompleteTask` clears
both, leaving the task with `completed = false` and `completed_at = null`. -/
theorem task_completion_round_trip (A : String) (inp : TaskInput) (now1 now2 : Nat) (s : Store)
    (htitle : jsTruthyStr inp.title = true)
    (hfresh : ∀ t ∈ s.tasks, t.id ≠ s.nextTaskId) :
    TaskRoundTrip A inp now1 now2 s := by
  have hmatch_old : ∀ t ∈ s.tasks, taskMatch A s.nextTaskId t = false := by
    intro t ht
    have hne : (t.id == s.nextTaskId) = false := by simpa using hfresh t ht
    simp [taskMatch, hne]
  have hold_nil : ∀ p : Task → Bool, (∀ t ∈ s.tasks, p t = false) →
      s.tasks.filter p = [] := by
    intro p hp
    exact List.filter_eq_nil_iff.mpr (fun t ht h => by rw [hp t ht] at h; cases h)
  have hold_id : ∀ g : Task → Task,
      (s.tasks.map fun t => if taskMatch A s.nextTaskId t then g t else t) = s.tasks := by
    intro g
    have hcongr : (s.tasks.map fun t => if taskMatch A s.nextTaskId t then g t else t)
        = s.tasks.map id :=
      List.map_congr_left (fun t ht => by rw [hmatch_old t ht]; simp)
    rw [hcongr, List.map_id]
  set t1 := taskRow A inp now1 s.nextTaskId with ht1def
  have hid1 : t1.id = s.nextTaskId := rfl
  have hm1 : taskMatch A s.nextTaskId t1 = true := by
    rw [ht1def]
    simp [taskMatch, taskRow]
  have hadd : crmAddTask A inp now1 s =
      (Except.ok t1, { s with tasks := s.tasks ++ [t1], nextTaskId := s.nextTaskId + 1 }) := by
    rw [crmAddTask, htitle]
    rfl
  set t2 : Task := { t1 with completed := true, completed_at := some now2 } with ht2def
  set t3 : Task := { t2 with completed := false, completed_at := none } with ht3def
  have hfilter1 : (s.tasks ++ [t1]).filter (taskMatch A s.nextTaskId) = [t1] := by
    rw [List.filter_append, hold_nil _ hmatch_old, List.nil_append]
    simp [hm1]
  have hcomp : completeTask A s.nextTaskId now2
      { s with tasks := s.tasks ++ [t1], nextTaskId := s.nextTaskId + 1 } =
      (Except.ok t2, { s with tasks := s.tasks ++ [t2], nextTaskId := s.nextTaskId + 1 }) := by
    rw [completeTask]
    simp only [hfilter1]
    rw [List.map_append, hold_id _]
    simp [hm1, ht2def]
  have hfilter2 : (s.tasks ++ [t2]).filter (taskMatch A s.nextTaskId) = [t2] := by
    rw [List.filter_append, hold_nil _ hmatch_old, List.nil_append]
    simp [taskMatch, ht2def, ht1def, taskRow]
  have hm2 : taskMatch A s.nextTaskId t2 = true := by
    simp [taskMatch, ht2def, ht1def, taskRow]
  have hunc : uncompleteTask A s.nextTaskId
      { s with tasks := s.tasks ++ [t2], nextTaskId := s.nextTaskId + 1 } =
      (Except.ok t3, { s with tasks := s.tasks ++ [t3], nextTaskId := s.nextTaskId + 1 }) := by
    rw [uncompleteTask]
    simp only [hfilter2]
    rw [List.map_append, hold_id _]
    simp [hm2, ht3def]
  refine ⟨t1, { s with tasks := s.tasks ++ [t1], nextTaskId := s.nextTaskId + 1 },
    t2, { s with tasks := s.tasks ++ [t2], nextTaskId := s.nextTaskId + 1 },
    t3, { s with tasks := s.tasks ++ [t3], nextTaskId := s.nextTaskId + 1 },
    hadd, rfl, rfl, ?_, rfl, rfl, ?_, rfl, rfl, rfl⟩
  · rw [hid1]; exact hcomp
  · show uncompleteTask A t2.id _ = _
    have hid2 : t2.id = s.nextTaskId := hid1
    rw [hid2]
    exact hunc

/-- Witness for C8 on a concrete store. -/
theorem task_completion_round_trip_witness :
    jsTruthyStr (some "X") = true ∧ (∀ t ∈ emptyStore.tasks, t.id ≠ emptyStore.nextTaskId) ∧
      TaskRoundTrip "a" { title := some "X" } 1 2 emptyStore :=
  ⟨rfl, fun t ht => absurd ht (List.not_mem_nil t),
    task_completion_round_trip "a" { title := some "X" } 1 2 emptyStore rfl
      (fun t ht => absurd ht (List.not_mem_nil t))⟩

/-- A conditional in-place map turns the filtered sublist into its image
when the rewrite keeps rows inside the filter. -/
theorem filter_map_ite_of_pres {a : Type} (p : a → Bool) (f : a → a)
    (hf : ∀ x, p x = true → p (f x) = true) :
    ∀ l : List a, (l.map (fun x => if p x then f x else x)).filter p = (l.filter p).map f := by
  intro l
  induction l with
  | nil => rfl
  | cons x t ih =>
      cases hp : p x with
      | true => simp [List.filter_cons, hp, hf x hp, ih]
      | false => simp [List.filter_cons, hp, ih]

-- ============ C4: moveStage sets stage and entry timestamp in one write ============

/-- What C4 asserts: the single update of `moveContactStage` rewrites the
matched row to one record carrying the new stage reference, the refreshed
entry timestamp and the refreshed `updated_at` all together, returns that
record, and the entry timestamp is strictly later than the one the contact
had before the call. -/
def MoveStageAtomic (A : String) (id stageId now : Nat) (s : Store) (c0 : Contact) : Prop :=
  moveContactStage A id stageId now s =
    (Except.ok { c0 with stage_id := some stageId, stage_entered_at := some now,
                         updated_at := now },
      { s with contacts :=
          s.contacts.map fun c =>
            if contactMatch A id c then
              { c with stage_id := some stageId, stage_entered_at := some now,
                       updated_at := now }
            else c }) ∧
  ({ c0 with stage_id := some stageId, stage_entered_at := some now,
             updated_at := now } : Contact).stage_id = some stageId ∧
  ({ c0 with stage_id := some stageId, stage_entered_at := some now,
             updated_at := now } : Contact).stage_entered_at = some now ∧
  (∀ t, c0.stage_entered_at = some t → t < now)

/-- C4: `moveContactStage` updates the stage reference and the stage-entry
timestamp together in one single write; the resulting contact has
`stage_id = stageId` and a stage-entry timestamp strictly greater than
before the call. -/
theorem moveStage_sets_stage_and_timestamp_atomically (A : String) (id stageId now : Nat)
    (s : Store) (c0 : Contact)
    (hone : s.contacts.filter (contactMatch A id) = [c0])
    (htime : ∀ t, c0.stage_entered_at = some t → t < now) :
    MoveStageAtomic A id stageId now s c0 := by
  refine ⟨?_, rfl, rfl, htime⟩
  rw [moveContactStage]
  simp only [hone]

/-- Concrete contact for the C4 witness. -/
def moveStageWContact : Contact :=
  { id := 1, agent_id := "a", name := "n", stage_entered_at := some 3 }

/-- Concrete store for the C4 witness. -/
def moveStageWStore : Store := { contacts := [moveStageWContact] }

/-- Witness for C4 on a concrete store. -/
theorem moveStage_sets_stage_and_timestamp_atomically_witness :
    moveStageWStore.contacts.filter (contactMatch "a" 1) = [moveStageWContact] ∧
    (∀ t, moveStageWContact.stage_entered_at = some t → t < 9) ∧
    MoveStageAtomic "a" 1 2 9 moveStageWStore moveStageWContact :=
  ⟨by decide, fun t ht => by cases ht; decide,
    moveStage_sets_stage_and_timestamp_atomically "a" 1 2 9 moveStageWStore moveStageWContact
      (by decide) (fun t ht => by cases ht; decide)⟩

-- ============ C6: addInteraction updates last_contact_at as a second write ============

/-- C6: after a successful interaction insert, `db.addInteraction` always
refreshes the parent contact's `last_contact_at` to now as a second write;
when that second write finds no contact row under the tenant it fails, the
error is propagated and fails the whole call, while the already-inserted
interaction stays in the store (no rollback). -/
theorem addInteraction_last_contact_second_write (A : String) (inp : InteractionInput)
    (now : Nat) (s : Store) :
    (s.contacts.filter (contactMatch A (inp.contactId.getD 0)) = [] →
        dbAddInteraction A inp now s =
          (Except.error CrmError.notFound,
            { s with
              interactions := s.interactions ++ [interactionRow A inp now s.nextInteractionId],
              nextInteractionId := s.nextInteractionId + 1 })) ∧
    (∀ c0, s.contacts.filter (contactMatch A (inp.contactId.getD 0)) = [c0] →
        dbAddInteraction A inp now s =
          (Except.ok (interactionRow A inp now s.nextInteractionId),
            { s with
              interactions := s.interactions ++ [interactionRow A inp now s.nextInteractionId],
              nextInteractionId := s.nextInteractionId + 1,
              contacts := s.contacts.map fun c =>
                if contactMatch A (inp.contactId.getD 0) c then
                  applyContactUpdate { lastContactAt := some (some now) } now c
                else c }) ∧
        (applyContactUpdate { lastContactAt := some (some now) } now c0).last_contact_at
          = some now) := by
  constructor
  · intro hnone
    rw [dbAddInteraction]
    simp only [dbUpdateContact, hnone]
  · intro c0 hone
    refine ⟨?_, rfl⟩
    rw [dbAddInteraction]
    simp only [dbUpdateContact, hone]

/-- Concrete cross-tenant store for the C6 witness: the referenced contact
exists, but under another tenant. -/
def addIntWStoreOther : Store :=
  { contacts := [{ id := 9, agent_id := "b", name := "x" }] }

/-- Concrete same-tenant store for the C6 witness. -/
def addIntWStoreOwn : Store :=
  { contacts := [{ id := 9, agent_id := "a", name := "x" }] }

/-- Concrete interaction input for the C6 witness. -/
def addIntWInput : InteractionInput :=
  { contactId := some 9, itype := some "call", createdBy := some "u" }

/-- Witness for C6: with the only matching contact belonging to another
tenant the second write fails and the inserted interaction survives; with a
matching contact the call succeeds and stamps `last_contact_at`. -/
theorem addInteraction_last_contact_second_write_witness :
    (addIntWStoreOther.contacts.filter (contactMatch "a" 9) = [] ∧
      dbAddInteraction "a" addIntWInput 7 addIntWStoreOther =
        (Except.error CrmError.notFound,
          { contacts := addIntWStoreOther.contacts,
            interactions := [interactionRow "a" addIntWInput 7 1],
            nextInteractionId := 2 })) ∧
    (applyContactUpdate { lastContactAt := some (some 7) } 7
        { id := 9, agent_id := "a", name := "x" }).last_contact_at = some 7 := by
  constructor
  · refine ⟨by decide, ?_⟩
    have h := (addInteraction_last_contact_second_write "a" addIntWInput 7
        addIntWStoreOther).1 (by decide)
    rw [h]
    rfl
  · exact ((addInteraction_last_contact_second_write "a" addIntWInput 7 addIntWStoreOwn).2
        { id := 9, agent_id := "a", name := "x" } (by decide)).2

-- ============ C10: updateContact always stamps updated_at ============

/-- Head of the recency sort is the unique most recently updated contact. -/
theorem insertionSort_head_of_unique_max (l : List Contact) (c : Contact) (hc : c ∈ l)
    (hmax : ∀ d ∈ l, d ≠ c → d.updated_at < c.updated_at) :
    (l.insertionSort contactRecencyGE).head? = some c := by
  have hperm : List.Perm (l.insertionSort contactRecencyGE) l := List.perm_insertionSort _ l
  have hsorted : List.Sorted contactRecencyGE (l.insertionSort contactRecencyGE) :=
    List.sorted_insertionSort _ l
  cases hout : l.insertionSort contactRecencyGE with
  | nil =>
      have hmem : c ∈ l.insertionSort contactRecencyGE := hperm.mem_iff.mpr hc
      rw [hout] at hmem
      cases hmem
  | cons h t =>
      by_cases hhc : h = c
      · rw [hhc]
        rfl
      · have hhl : h ∈ l := hperm.subset (hout ▸ List.mem_cons_self h t)
        have hlt : h.updated_at < c.updated_at := hmax h hhl hhc
        have hcs : c ∈ h :: t := by rw [← hout]; exact hperm.mem_iff.mpr hc
        rcases List.mem_cons.mp hcs with h1 | h1
        · exact absurd h1.symm hhc
        · have hrel : contactRecencyGE h c := by
            rw [hout] at hsorted
            exact List.rel_of_sorted_cons hsorted c h1
          rw [contactRecencyGE] at hrel
          omega

/-- With an empty options object the contact listing filter is just the
tenant check. -/
theorem contactFilter_default (A : String) (c : Contact) :
    contactFilter A {} c = (c.agent_id == A) := by
  simp [contactFilter, contactOptsFilter, jsTruthyNat, jsTruthyStr]

/-- With default options, the head of the contact listing is the joined form
of the unique most recently updated tenant contact. -/
theorem listContacts_default_head (A : String) (s : Store) (c : Contact)
    (hc : c ∈ s.contacts.filter (fun x => x.agent_id == A))
    (hmax : ∀ d ∈ s.contacts.filter (fun x => x.agent_id == A),
        d ≠ c → d.updated_at < c.updated_at) :
    (listContacts A {} s).head? = some (joinContact s c) := by
  show (((s.contacts.filter (contactFilter A {})).insertionSort contactRecencyGE).map
      (joinContact s)).head? = some (joinContact s c)
  have hfc : s.contacts.filter (contactFilter A {})
      = s.contacts.filter (fun x => x.agent_id == A) :=
    List.filter_congr (fun x _ => contactFilter_default A x)
  rw [hfc, List.head?_map, insertionSort_head_of_unique_max _ _ hc hmax]
  rfl

/-- What C10 asserts about `updateContact` and `addInteraction`. -/
def UpdatedAtRefresh (A : String) (inp : InteractionInput) (now : Nat) (s : Store)
    (c0 : Contact) : Prop :=
  (dbUpdateContact A (inp.contactId.getD 0) {} now s).1
      = Except.ok { c0 with updated_at := now } ∧
  (dbAddInteraction A inp now s).2.contacts.filter (contactMatch A (inp.contactId.getD 0))
      = [applyContactUpdate { lastContactAt := some (some now) } now c0] ∧
  (applyContactUpdate { lastContactAt := some (some now) } now c0).updated_at = now ∧
  c0.updated_at ≠ now ∧
  (listContacts A {} (dbAddInteraction A inp now s).2).head?
      = some (joinContact (dbAddInteraction A inp now s).2
          (applyContactUpdate { lastContactAt := some (some now) } now c0))

/-- C10: `updateContact` stamps a fresh `updated_at` even when the update
object has no recognized keys, so a successful `addInteraction` also
rewrites the parent contact's `updated_at` (not only `last_contact_at`),
which moves that contact to the front of the recency-ordered listing. -/
theorem updateContact_always_stamps_updated_at (A : String) (inp : InteractionInput)
    (now : Nat) (s : Store) (c0 : Contact)
    (hone : s.contacts.filter (contactMatch A (inp.contactId.getD 0)) = [c0])
    (hpast : ∀ c ∈ s.contacts, c.updated_at < now) :
    UpdatedAtRefresh A inp now s c0 := by
  have hc0 := List.mem_filter.mp (hone ▸ List.mem_singleton_self c0)
  have hc0mem : c0 ∈ s.contacts := hc0.1
  have hc0match : contactMatch A (inp.contactId.getD 0) c0 = true := hc0.2
  have hagent : (c0.agent_id == A) = true :=
    (Bool.and_eq_true _ _ |>.mp hc0match).2
  have hadd : dbAddInteraction A inp now s =
      (Except.ok (interactionRow A inp now s.nextInteractionId),
        { s with
          interactions := s.interactions ++ [interactionRow A inp now s.nextInteractionId],
          nextInteractionId := s.nextInteractionId + 1,
          contacts := s.contacts.map fun c =>
            if contactMatch A (inp.contactId.getD 0) c then
              applyContactUpdate { lastContactAt := some (some now) } now c
            else c }) :=
    ((addInteraction_last_contact_second_write A inp now s).2 c0 hone).1
  have hmapfilter : (s.contacts.map fun c =>
        if contactMatch A (inp.contactId.getD 0) c then
          applyContactUpdate { lastContactAt := some (some now) } now c
        else c).filter (contactMatch A (inp.contactId.getD 0))
      = [applyContactUpdate { lastContactAt := some (some now) } now c0] := by
    have hstep := filter_map_ite_of_pres (contactMatch A (inp.contactId.getD 0))
      (applyContactUpdate { lastContactAt := some (some now) } now)
      (fun x hx => hx) s.contacts
    rw [hstep, hone]
    rfl
  refine ⟨?_, ?_, rfl, ?_, ?_⟩
  · rw [dbUpdateContact]
    simp only [hone]
    rfl
  · rw [hadd]
    exact hmapfilter
  · exact Nat.ne_of_lt (hpast c0 hc0mem)
  · have h2 : (dbAddInteraction A inp now s).2 =
        { s with
          interactions := s.interactions ++ [interactionRow A inp now s.nextInteractionId],
          nextInteractionId := s.nextInteractionId + 1,
          contacts := s.contacts.map fun c =>
            if contactMatch A (inp.contactId.getD 0) c then
              applyContactUpdate { lastContactAt := some (some now) } now c
            else c } := by rw [hadd]
    rw [h2]
    apply listContacts_default_head
    · apply List.mem_filter.mpr
      refine ⟨List.mem_map.mpr ⟨c0, hc0mem, ?_⟩, hagent⟩
      show (if contactMatch A (inp.contactId.getD 0) c0 then
          applyContactUpdate { lastContactAt := some (some now) } now c0 else c0) = _
      rw [hc0match]
      simp
    · intro d hd hne
      have hdm : d ∈ s.contacts.map fun c =>
          if contactMatch A (inp.contactId.getD 0) c then
            applyContactUpdate { lastContactAt := some (some now) } now c
          else c := (List.mem_filter.mp hd).1
      rcases List.mem_map.mp hdm with ⟨c, hcmem, hceq0⟩
      have hceq : (if contactMatch A (inp.contactId.getD 0) c then
          applyContactUpdate { lastContactAt := some (some now) } now c else c) = d := hceq0
      by_cases hm : contactMatch A (inp.contactId.getD 0) c = true
      · have hcc0 : c = c0 := by
          have hmem2 : c ∈ s.contacts.filter (contactMatch A (inp.contactId.getD 0)) :=
            List.mem_filter.mpr ⟨hcmem, hm⟩
          rw [hone] at hmem2
          exact List.mem_singleton.mp hmem2
        rw [hm] at hceq
        simp only [if_pos rfl] at hceq
        rw [hcc0] at hceq
        exact absurd hceq.symm hne
      · have hm' : contactMatch A (inp.contactId.getD 0) c = false := by simpa using hm
        rw [hm'] at hceq
        simp only [Bool.false_eq_true, if_false] at hceq
        show d.updated_at < now
        rw [← hceq]
        exact hpast c hcmem

/-- Concrete contact for the C10 witness. -/
def updAtWContact : Contact := { id := 3, agent_id := "a", name := "n", updated_at := 2 }

/-- Second concrete contact for the C10 witness (stays behind the updated one). -/
def updAtWContact2 : Contact := { id := 4, agent_id := "a", name := "m", updated_at := 5 }

/-- Concrete store for the C10 witness. -/
def updAtWStore : Store := { contacts := [updAtWContact, updAtWContact2] }

/-- Concrete interaction input for the C10 witness. -/
def updAtWInput : InteractionInput :=
  { contactId := some 3, itype := some "note", createdBy := some "u" }

/-- Witness for C10 on a concrete store. -/
theorem updateContact_always_stamps_updated_at_witness :
    updAtWStore.contacts.filter (contactMatch "a" (updAtWInput.contactId.getD 0))
        = [updAtWContact] ∧
    (∀ c ∈ updAtWStore.contacts, c.updated_at < 9) ∧
    UpdatedAtRefresh "a" updAtWInput 9 updAtWStore updAtWContact :=
  ⟨by decide, by decide,
    updateContact_always_stamps_updated_at "a" updAtWInput 9 updAtWStore updAtWContact
      (by decide) (by decide)⟩

-- ============ C2: pipeline stats bucket sums ============

/-- Partition identity behind `getPipelineStats`: when stage ids are
duplicate-free, 0 is not a stage id, and every contact is unstaged or
points at a listed stage, the per-stage bucket sums plus the unstaged
bucket sum recover the grand total. -/
theorem pipeline_partition {M : Type} [AddCommMonoid M] (f : Contact → M)
    (sorted : List Stage) (contacts : List Contact)
    (hnd : (sorted.map (fun st => st.id)).Nodup)
    (hnz : (0 : Nat) ∉ sorted.map (fun st => st.id))
    (hcover : ∀ c ∈ contacts,
        c.stage_id = none ∨ c.stage_id ∈ sorted.map (fun st => some st.id)) :
    (sorted.map
        (fun st => ((contacts.filter (fun c => c.stage_id == some st.id)).map f).sum)).sum
      + ((contacts.filter isUnstaged).map f).sum
      = (contacts.map f).sum := by
  have step1 : sorted.map
        (fun st => ((contacts.filter (fun c => c.stage_id == some st.id)).map f).sum)
      = (sorted.map (fun st => st.id)).map
          (fun i => ((contacts.filter (fun c => c.stage_id == some i)).map f).sum) := by
    rw [List.map_map]
    rfl
  rw [step1, sum_buckets f (sorted.map (fun st => st.id)) hnd contacts]
  have hdisj : ∀ c : Contact, ¬((match c.stage_id with
      | some v => (sorted.map (fun st => st.id)).contains v
      | none => false) = true ∧ isUnstaged c = true) := by
    intro c hand
    cases hsid : c.stage_id with
    | none => rw [hsid] at hand; cases hand.1
    | some v =>
        have h1 := hand.1
        rw [hsid] at h1
        have h1' : (sorted.map (fun st => st.id)).contains v = true := h1
        have hv0 : v = 0 := by simpa [isUnstaged, hsid] using hand.2
        rw [hv0] at h1'
        exact hnz (by simpa using h1')
  have hsplit := sum_filter_or_disjoint f
    (fun c => match c.stage_id with
      | some v => (sorted.map (fun st => st.id)).contains v
      | none => false) isUnstaged hdisj contacts
  rw [← hsplit]
  have hcov2 : ∀ c ∈ contacts, ((match c.stage_id with
      | some v => (sorted.map (fun st => st.id)).contains v
      | none => false) || isUnstaged c) = true := by
    intro c hcm
    cases hsid : c.stage_id with
    | none => simp [isUnstaged, hsid]
    | some v =>
        rcases hcover c hcm with h | h
        · rw [hsid] at h; cases h
        · rw [hsid] at h
          rcases List.mem_map.mp h with ⟨st, hstm, hsteq⟩
          have hv : v = st.id := by
            have := hsteq.symm
            simpa using this
          have hmem : v ∈ sorted.map (fun st => st.id) := by
            rw [hv]
            exact List.mem_map_of_mem _ hstm
          simp [hmem]
  rw [List.filter_congr (fun c hcm => hcov2 c hcm)]
  rw [List.filter_true]

/-- What (amended) C2 asserts: the per-stage bucket counts (plus unstaged
bucket) sum to `totalContacts`, and the bucket values sum to `totalValue`. -/
def PipelineSums (A : String) (s : Store) : Prop :=
  ((getPipelineStats A s).stages.map (fun b => b.count)).sum
      = (getPipelineStats A s).totalContacts ∧
  ((getPipelineStats A s).stages.map (fun b => b.value)).sum
      = (getPipelineStats A s).totalValue

/-- C2 (amended): when the tenant's stage ids are duplicate-free and
nonzero (as the serial primary key guarantees) and every active contact of
the tenant is unstaged or references one of the tenant's own stages (no
dangling or cross-tenant stage reference), the bucket counts sum to
`totalContacts` and the bucket values sum to `totalValue`, inactive
contacts excluded from both. -/
theorem getPipelineStats_bucket_sums (A : String) (s : Store)
    (hnd : ((s.stages.filter (fun st => st.agent_id == A)).map (fun st => st.id)).Nodup)
    (hnz : ∀ st ∈ s.stages.filter (fun st => st.agent_id == A), st.id ≠ 0)
    (hcover : ∀ c ∈ s.contacts.filter (fun c => c.agent_id == A && c.is_active),
        c.stage_id = none ∨
          ∃ st ∈ s.stages.filter (fun st => st.agent_id == A), c.stage_id = some st.id) :
    PipelineSums A s := by
  have hperm : List.Perm (listStages A s) (s.stages.filter (fun st => st.agent_id == A)) :=
    List.perm_insertionSort _ _
  have hnd2 : ((listStages A s).map (fun st => st.id)).Nodup :=
    ((hperm.map (fun st => st.id)).nodup_iff).mpr hnd
  have hnz2 : (0 : Nat) ∉ (listStages A s).map (fun st => st.id) := by
    intro h0
    rcases List.mem_map.mp h0 with ⟨st, hstm, hstid⟩
    exact hnz st (hperm.mem_iff.mp hstm) hstid
  have hcover2 : ∀ c ∈ s.contacts.filter (fun c => c.agent_id == A && c.is_active),
      c.stage_id = none ∨ c.stage_id ∈ (listStages A s).map (fun st => some st.id) := by
    intro c hcm
    rcases hcover c hcm with h | ⟨st, hstm, hsteq⟩
    · exact Or.inl h
    · right
      rw [hsteq]
      exact List.mem_map_of_mem _ (hperm.mem_iff.mpr hstm)
  have hcount := pipeline_partition (fun _ => (1 : Nat)) (listStages A s)
    (s.contacts.filter (fun c => c.agent_id == A && c.is_active)) hnd2 hnz2 hcover2
  have hval := pipeline_partition contribution (listStages A s)
    (s.contacts.filter (fun c => c.agent_id == A && c.is_active)) hnd2 hnz2 hcover2
  simp only [sum_map_one] at hcount
  constructor
  · show ((getPipelineStats A s).stages.map (fun b => b.count)).sum
        = (getPipelineStats A s).totalContacts
    rw [getPipelineStats]
    simp only [List.map_map]
    by_cases hu : ((s.contacts.filter
        (fun c => c.agent_id == A && c.is_active)).filter isUnstaged).length > 0
    · rw [if_pos hu]
      simp only [List.map_cons, List.sum_cons, List.map_map]
      rw [Nat.add_comm]
      exact hcount
    · rw [if_neg hu]
      have hz : ((s.contacts.filter
          (fun c => c.agent_id == A && c.is_active)).filter isUnstaged).length = 0 := by
        omega
      rw [List.map_map]
      have hcount2 : (((listStages A s).map (fun st => ((s.contacts.filter
          (fun c => c.agent_id == A && c.is_active)).filter
            (fun c => c.stage_id == some st.id)).length)).sum)
          = (s.contacts.filter (fun c => c.agent_id == A && c.is_active)).length := by
        omega
      exact hcount2
  · show ((getPipelineStats A s).stages.map (fun b => b.value)).sum
        = (getPipelineStats A s).totalValue
    rw [getPipelineStats]
    simp only [List.map_map]
    by_cases hu : ((s.contacts.filter
        (fun c => c.agent_id == A && c.is_active)).filter isUnstaged).length > 0
    · rw [if_pos hu]
      simp only [List.map_cons, List.sum_cons, List.map_map]
      rw [add_comm]
      exact hval
    · rw [if_neg hu]
      have hz : (s.contacts.filter
          (fun c => c.agent_id == A && c.is_active)).filter isUnstaged = [] :=
        List.length_eq_zero.mp (by omega)
      rw [hz] at hval
      simp only [List.map_nil, List.sum_nil, add_zero] at hval
      rw [List.map_map]
      exact hval

/-- Concrete store refuting C2 as stated: tenant A's only active contact
references stage 2, which belongs to tenant B, so it lands in no bucket. -/
def pipelineCexStore : Store :=
  { stages := [{ id := 1, agent_id := "A", name := "Lead", position := 1 },
               { id := 2, agent_id := "B", name := "Lead", position := 1 }],
    contacts := [{ id := 1, agent_id := "A", name := "c", stage_id := some 2,
                   deal_value := some 5 }] }

/-- Counterexample to C2 as stated: with a cross-tenant (or dangling) stage
reference the bucket sums miss the contact — the counts sum to 0 while
`totalContacts` is 1, and the values sum to 0 while `totalValue` is 5. -/
theorem getPipelineStats_bucket_sums_cex :
    ¬(((getPipelineStats "A" pipelineCexStore).stages.map (fun b => b.count)).sum
          = (getPipelineStats "A" pipelineCexStore).totalContacts ∧
      ((getPipelineStats "A" pipelineCexStore).stages.map (fun b => b.value)).sum
          = (getPipelineStats "A" pipelineCexStore).totalValue) := by
  decide

/-- Witness for (amended) C2 on a concrete store with staged, unstaged and
inactive contacts. -/
theorem getPipelineStats_bucket_sums_witness :
    (((emptyStore.stages).filter (fun st => st.agent_id == "t1")).map
        (fun st => st.id)).Nodup ∧
      PipelineSums "t1"
        { stages := [{ id := 1, agent_id := "t1", name := "Lead", position := 1 },
                     { id := 2, agent_id := "t1", name := "Won", position := 2 }],
          contacts := [{ id := 1, agent_id := "t1", name := "a", stage_id := some 1,
                         deal_value := some 100 },
                       { id := 2, agent_id := "t1", name := "b", stage_id := some 2,
                         deal_value := some 50 },
                       { id := 3, agent_id := "t1", name := "c", deal_value := some 25 },
                       { id := 4, agent_id := "t1", name := "d", stage_id := some 1,
                         deal_value := some 1000, is_active := false }] } :=
  ⟨by decide,
    getPipelineStats_bucket_sums "t1" _ (by decide) (by decide) (by decide)⟩

-- ============ C7: reorderStages rewrites positions and orders the listing ============

/-- The position patch applied by the reorder loop: a stage listed in the
id/position pairs gets its listed position, all other rows are untouched. -/
def posOf (pairs : List (Nat × Int)) (st : Stage) : Stage :=
  match pairs.lookup st.id with
  | some p => { st with position := p }
  | none => st

/-- The integer interval `[k, k + n)` as a list. -/
def intRange (k : Int) : Nat → List Int
  | 0 => []
  | n + 1 => k :: intRange (k + 1) n

theorem intRange_length (k : Int) : ∀ n, (intRange k n).length = n := by
  intro n
  induction n generalizing k with
  | zero => rfl
  | succ m ih => simp [intRange, ih]

theorem mem_intRange_ge {x : Int} : ∀ {n : Nat} {k : Int}, x ∈ intRange k n → k ≤ x := by
  intro n
  induction n with
  | zero => intro k h; cases h
  | succ m ih =>
      intro k h
      rcases List.mem_cons.mp h with h1 | h1
      · omega
      · have := ih h1
        omega

theorem intRange_pairwise (k : Int) : ∀ n, (intRange k n).Pairwise (· < ·) := by
  intro n
  induction n generalizing k with
  | zero => exact List.Pairwise.nil
  | succ m ih =>
      refine List.pairwise_cons.mpr ⟨?_, ih (k + 1)⟩
      intro x hx
      have := mem_intRange_ge hx
      omega

theorem intRange_getElem (k : Int) :
    ∀ (n : Nat) (j : Nat) (hj : j < (intRange k n).length),
      (intRange k n)[j] = k + j := by
  intro n
  induction n generalizing k with
  | zero => intro j hj; rw [intRange_length] at hj; omega
  | succ m ih =>
      intro j hj
      cases j with
      | zero => simp [intRange]
      | succ i =>
          have hi : i < (intRange (k + 1) m).length := by
            rw [intRange_length]
            rw [intRange_length] at hj
            omega
          show (intRange (k + 1) m)[i] = _
          rw [ih (k + 1) i hi]
          push_cast
          ring

theorem posPairs_keys : ∀ (ids : List Nat) (k : Int), (posPairs k ids).map Prod.fst = ids := by
  intro ids
  induction ids with
  | nil => intro k; rfl
  | cons i rest ih => intro k; simp [posPairs, ih]

theorem lookup_none_of_not_mem_keys {b : Type} :
    ∀ (l : List (Nat × b)) (i : Nat), i ∉ l.map Prod.fst → l.lookup i = none := by
  intro l
  induction l with
  | nil => intro i _; rfl
  | cons x rest ih =>
      intro i hi
      have h1 : i ≠ x.1 := fun h => hi (h ▸ List.mem_map_of_mem Prod.fst (List.mem_cons_self x rest))
      obtain ⟨k, v⟩ := x
      have hbe : (i == k) = false := by simpa using h1
      simp only [List.lookup, hbe]
      exact ih i (fun hm => hi (List.mem_cons_of_mem _ hm))

theorem lookup_posPairs_getElem :
    ∀ (ids : List Nat) (k : Int), ids.Nodup →
      ∀ (j : Nat) (hj : j < ids.length),
        (posPairs k ids).lookup ids[j] = some (k + j) := by
  intro ids
  induction ids with
  | nil => intro k _ j hj; cases hj
  | cons i rest ih =>
      intro k hnd j hj
      have hi : i ∉ rest := (List.nodup_cons.mp hnd).1
      have hrest : rest.Nodup := (List.nodup_cons.mp hnd).2
      cases j with
      | zero =>
          show (posPairs k (i :: rest)).lookup i = some (k + (0 : Nat))
          simp [posPairs, List.lookup]
      | succ m =>
          have hm : m < rest.length := by simpa using hj
          show (posPairs k (i :: rest)).lookup rest[m] = some (k + ((m : Nat) + 1 : Nat))
          have hne : rest[m] ≠ i := fun h => hi (h ▸ List.getElem_mem hm)
          have hbe : (rest[m] == i) = false := by simpa using hne
          simp only [posPairs, List.lookup, hbe]
          rw [ih (k + 1) hrest m hm]
          congr 1
          push_cast
          ring

theorem lookup_posPairs_of_mem {i : Nat} :
    ∀ (ids : List Nat) (k : Int), ids.Nodup → i ∈ ids →
      ∃ j, ∃ hj : j < ids.length, ids[j] = i ∧ (posPairs k ids).lookup i = some (k + j) := by
  intro ids k hnd hi
  rcases List.mem_iff_getElem.mp hi with ⟨j, hj, hget⟩
  exact ⟨j, hj, hget, by rw [← hget]; exact lookup_posPairs_getElem ids k hnd j hj⟩

theorem map_lookup_posPairs_eq_intRange :
    ∀ (ids : List Nat) (k : Int), ids.Nodup →
      ids.map (fun i => ((posPairs k ids).lookup i).getD 0) = intRange k ids.length := by
  intro ids
  induction ids with
  | nil => intro k _; rfl
  | cons i rest ih =>
      intro k hnd
      have hi : i ∉ rest := (List.nodup_cons.mp hnd).1
      have hrest : rest.Nodup := (List.nodup_cons.mp hnd).2
      have hhead : ((posPairs k (i :: rest)).lookup i).getD 0 = k := by
        simp [posPairs, List.lookup]
      have htail : rest.map (fun x => ((posPairs k (i :: rest)).lookup x).getD 0)
          = rest.map (fun x => ((posPairs (k + 1) rest).lookup x).getD 0) := by
        apply List.map_congr_left
        intro x hx
        have hne : x ≠ i := fun h => hi (h ▸ hx)
        have hbe : (x == i) = false := by simpa using hne
        simp only [posPairs, List.lookup, hbe]
      show ((posPairs k (i :: rest)).lookup i).getD 0 ::
          rest.map (fun x => ((posPairs k (i :: rest)).lookup x).getD 0)
        = intRange k (rest.length + 1)
      rw [hhead, htail, ih (k + 1) hrest]
      rfl

/-- `posOf` changes only the position column. -/
theorem posOf_id (pairs : List (Nat × Int)) (st : Stage) : (posOf pairs st).id = st.id := by
  rw [posOf]
  cases pairs.lookup st.id <;> rfl

theorem posOf_agent (pairs : List (Nat × Int)) (st : Stage) :
    (posOf pairs st).agent_id = st.agent_id := by
  rw [posOf]
  cases pairs.lookup st.id <;> rfl

/-- Filtering on a predicate that the rewrite preserves commutes with the map. -/
theorem filter_map_pres {a : Type} (p : a → Bool) (f : a → a)
    (h : ∀ x, p (f x) = p x) :
    ∀ l : List a, (l.map f).filter p = (l.filter p).map f := by
  intro l
  induction l with
  | nil => rfl
  | cons x t ih =>
      cases hp : p x with
      | true => simp [List.filter_cons, h x, hp, ih]
      | false => simp [List.filter_cons, h x, hp, ih]

/-- The sequential update loop of `reorderStages` succeeds and applies
exactly the position patch `posOf pairs` to the stages table, provided the
listed ids are distinct, stage ids are globally unique (serial primary
key) and every listed id belongs to a stage of the tenant. -/
theorem reorderAux_ok (A : String) :
    ∀ (pairs : List (Nat × Int)) (s : Store),
      (s.stages.map (fun st => st.id)).Nodup →
      (pairs.map Prod.fst).Nodup →
      (∀ pr ∈ pairs, ∃ st ∈ s.stages, st.id = pr.1 ∧ st.agent_id = A) →
      reorderAux A pairs s = (Except.ok (), { s with stages := s.stages.map (posOf pairs) }) := by
  intro pairs
  induction pairs with
  | nil =>
      intro s _ _ _
      have hmap : s.stages.map (posOf []) = s.stages := by
        have : s.stages.map (posOf []) = s.stages.map id :=
          List.map_congr_left (fun st _ => by rw [posOf]; rfl)
        rw [this, List.map_id]
      rw [reorderAux, hmap]
  | cons pr rest ih =>
      intro s hnd hkeys hmem
      obtain ⟨i, p⟩ := pr
      obtain ⟨st0, hst0mem, hst0id, hst0ag⟩ := hmem (i, p) (List.mem_cons_self _ _)
      have hkey_i : i ∉ rest.map Prod.fst := (List.nodup_cons.mp hkeys).1
      have hkeys' : (rest.map Prod.fst).Nodup := (List.nodup_cons.mp hkeys).2
      have hpx : stageMatch A i st0 = true := by simp [stageMatch, hst0id, hst0ag]
      have hfilter : s.stages.filter (stageMatch A i) = [st0] := by
        apply filter_eq_singleton_of_nodup_key (fun st => st.id) _ hnd hst0mem hpx
        intro y hy
        have hyid : (y.id == i) = true := (Bool.and_eq_true _ _ |>.mp hy).1
        rw [hst0id]
        simpa using hyid
      have hupd : updateStage A i { position := some p } s =
          (Except.ok (applyStageUpdate { position := some p } st0),
            { s with stages := s.stages.map fun st =>
                if stageMatch A i st then applyStageUpdate { position := some p } st else st }) := by
        rw [updateStage]
        simp only [hfilter]
      rw [reorderAux, hupd]
      show reorderAux A rest { s with stages := s.stages.map (fun st => if stageMatch A i st then applyStageUpdate { position := some p } st else st) } = _
      have hnd1 : (((s.stages.map fun st =>
          if stageMatch A i st then applyStageUpdate { position := some p } st else st)).map
            (fun st => st.id)).Nodup := by
        have heq : ((s.stages.map fun st =>
            if stageMatch A i st then applyStageUpdate { position := some p } st else st)).map
              (fun st => st.id) = s.stages.map (fun st => st.id) := by
          rw [List.map_map]
          apply List.map_congr_left
          intro st _
          cases hm : stageMatch A i st <;> simp [hm, applyStageUpdate]
        rw [heq]
        exact hnd
      have hmem1 : ∀ pr ∈ rest, ∃ st ∈ (s.stages.map fun st =>
          if stageMatch A i st then applyStageUpdate { position := some p } st else st),
            st.id = pr.1 ∧ st.agent_id = A := by
        intro pr hpr
        obtain ⟨st, hstm, hstid, hstag⟩ := hmem pr (List.mem_cons_of_mem _ hpr)
        refine ⟨if stageMatch A i st then applyStageUpdate { position := some p } st else st,
          List.mem_map_of_mem _ hstm, ?_, ?_⟩
        · cases hm : stageMatch A i st <;> simpa [hm] using hstid
        · cases hm : stageMatch A i st <;> simpa [hm] using hstag
      rw [ih _ hnd1 hkeys' hmem1]
      have hcomp : ((s.stages.map fun st =>
          if stageMatch A i st then applyStageUpdate { position := some p } st else st)).map
            (posOf rest) = s.stages.map (posOf ((i, p) :: rest)) := by
        rw [List.map_map]
        apply List.map_congr_left
        intro st hstm
        show posOf rest (if stageMatch A i st then applyStageUpdate { position := some p } st
          else st) = posOf ((i, p) :: rest) st
        cases hm : stageMatch A i st with
        | true =>
            have hid : st.id = i := by
              simpa using (Bool.and_eq_true _ _ |>.mp hm).1
            have hbe : (st.id == i) = true := by simpa using hid
            have hlk : rest.lookup i = none := lookup_none_of_not_mem_keys rest i hkey_i
            have hlk1 : rest.lookup (applyStageUpdate { position := some p } st).id = none := by
              show rest.lookup st.id = none
              rw [hid]
              exact hlk
            have hlk2 : ((i, p) :: rest).lookup st.id = some p := by
              show (match st.id == i with
                | true => some p
                | false => rest.lookup st.id) = some p
              rw [hbe]
            show posOf rest (applyStageUpdate { position := some p } st)
              = posOf ((i, p) :: rest) st
            rw [posOf, posOf]
            rw [hlk1, hlk2]
            rfl
        | false =>
            have hid : st.id ≠ i := by
              intro h
              have hfeq : (fun st : Stage => st.id) st = (fun st : Stage => st.id) st0 := by
                show st.id = st0.id
                rw [h, hst0id]
              have hstst0 : st = st0 :=
                List.inj_on_of_nodup_map hnd hstm hst0mem hfeq
              rw [hstst0] at hm
              rw [hpx] at hm
              cases hm
            have hbe : (st.id == i) = false := by simpa using hid
            have hlk2 : ((i, p) :: rest).lookup st.id = rest.lookup st.id := by
              show (match st.id == i with
                | true => some p
                | false => rest.lookup st.id) = rest.lookup st.id
              rw [hbe]
            show posOf rest st = posOf ((i, p) :: rest) st
            rw [posOf, posOf]
            rw [hlk2]
      rw [hcomp]

instance : IsAntisymm Int (fun a b : Int => a < b) :=
  ⟨fun a _ h1 h2 => absurd (lt_trans h1 h2) (lt_irrefl a)⟩

/-- C7 (amended): when the ordered id list is a permutation of the tenant's
stage ids (each listed exactly once) and stage ids are globally unique,
`reorderStages` rewrites each listed stage's position to its index+1,
sequentially in list order, and the returned `listStages` holds exactly
those stages in exactly that id order with positions 1..n. -/
theorem reorderStages_reorders (A : String) (stageIds : List Nat) (s : Store)
    (hnd : (s.stages.map (fun st => st.id)).Nodup)
    (hids : stageIds.Nodup)
    (hperm : List.Perm
      ((s.stages.filter (fun st => st.agent_id == A)).map (fun st => st.id)) stageIds) :
    ∃ out,
      reorderStages A stageIds s =
        (Except.ok out, { s with stages := s.stages.map (posOf (posPairs 1 stageIds)) }) ∧
      out = listStages A { s with stages := s.stages.map (posOf (posPairs 1 stageIds)) } ∧
      out.map (fun st => st.id) = stageIds ∧
      out.map (fun st => st.position) = intRange 1 stageIds.length := by
  have hkeys : ((posPairs 1 stageIds).map Prod.fst).Nodup := by
    rw [posPairs_keys]
    exact hids
  have hmem : ∀ pr ∈ posPairs 1 stageIds, ∃ st ∈ s.stages, st.id = pr.1 ∧ st.agent_id = A := by
    intro pr hpr
    have h1 : pr.1 ∈ stageIds := by
      have h := List.mem_map_of_mem Prod.fst hpr
      rw [posPairs_keys] at h
      exact h
    have h2 : pr.1 ∈ (s.stages.filter (fun st => st.agent_id == A)).map (fun st => st.id) :=
      hperm.mem_iff.mpr h1
    rcases List.mem_map.mp h2 with ⟨st, hstm, hstid⟩
    have hf := List.mem_filter.mp hstm
    exact ⟨st, hf.1, hstid, by simpa using hf.2⟩
  have haux := reorderAux_ok A (posPairs 1 stageIds) s hnd hkeys hmem
  have hfirst : reorderStages A stageIds s =
      (Except.ok (listStages A { s with stages := s.stages.map (posOf (posPairs 1 stageIds)) }),
        { s with stages := s.stages.map (posOf (posPairs 1 stageIds)) }) := by
    rw [reorderStages, haux]
  have htl : (s.stages.map (posOf (posPairs 1 stageIds))).filter (fun st => st.agent_id == A)
      = (s.stages.filter (fun st => st.agent_id == A)).map (posOf (posPairs 1 stageIds)) :=
    filter_map_pres _ _ (fun st => by rw [posOf_agent]) _
  have hout : listStages A { s with stages := s.stages.map (posOf (posPairs 1 stageIds)) }
      = ((s.stages.filter (fun st => st.agent_id == A)).map
          (posOf (posPairs 1 stageIds))).insertionSort stageLE := by
    rw [listStages]
    show ((s.stages.map (posOf (posPairs 1 stageIds))).filter
        (fun st => st.agent_id == A)).insertionSort stageLE = _
    rw [htl]
  have hchar : ∀ st ∈ (s.stages.filter (fun st => st.agent_id == A)).map
      (posOf (posPairs 1 stageIds)), ∃ j, ∃ hj : j < stageIds.length,
        st.id = stageIds[j] ∧ st.position = 1 + (j : Int) := by
    intro st hst
    rcases List.mem_map.mp hst with ⟨st0, hst0m, hst0eq⟩
    have hidmem : st0.id ∈ stageIds := hperm.mem_iff.mp
      (List.mem_map_of_mem (fun st => st.id) hst0m)
    rcases lookup_posPairs_of_mem stageIds 1 hids hidmem with ⟨j, hj, hget, hlk⟩
    refine ⟨j, hj, ?_, ?_⟩
    · rw [← hst0eq, posOf_id, hget]
    · rw [← hst0eq]
      show (posOf (posPairs 1 stageIds) st0).position = 1 + (j : Int)
      rw [posOf, hlk]
  have hposperm : List.Perm (((s.stages.filter (fun st => st.agent_id == A)).map
      (posOf (posPairs 1 stageIds))).map (fun st => st.position))
      (intRange 1 stageIds.length) := by
    have h1 : ((s.stages.filter (fun st => st.agent_id == A)).map
        (posOf (posPairs 1 stageIds))).map (fun st => st.position)
        = (s.stages.filter (fun st => st.agent_id == A)).map
            (fun st0 => ((posPairs 1 stageIds).lookup st0.id).getD 0) := by
      rw [List.map_map]
      apply List.map_congr_left
      intro st0 hst0m
      have hidmem : st0.id ∈ stageIds := hperm.mem_iff.mp
        (List.mem_map_of_mem (fun st => st.id) hst0m)
      rcases lookup_posPairs_of_mem stageIds 1 hids hidmem with ⟨j, hj, hget, hlk⟩
      show (posOf (posPairs 1 stageIds) st0).position = _
      rw [posOf, hlk]
      rfl
    have h3 : (s.stages.filter (fun st => st.agent_id == A)).map
        (fun st0 => ((posPairs 1 stageIds).lookup st0.id).getD 0)
        = ((s.stages.filter (fun st => st.agent_id == A)).map (fun st => st.id)).map
            (fun i => ((posPairs 1 stageIds).lookup i).getD 0) := by
      rw [List.map_map]
      rfl
    have h4 := hperm.map (fun i => ((posPairs 1 stageIds).lookup i).getD 0)
    rw [h1, h3]
    exact h4.trans (by rw [map_lookup_posPairs_eq_intRange stageIds 1 hids])
  have hsortperm : List.Perm (((s.stages.filter (fun st => st.agent_id == A)).map
      (posOf (posPairs 1 stageIds))).insertionSort stageLE)
      ((s.stages.filter (fun st => st.agent_id == A)).map (posOf (posPairs 1 stageIds))) :=
    List.perm_insertionSort _ _
  have houtposperm : List.Perm ((((s.stages.filter (fun st => st.agent_id == A)).map
      (posOf (posPairs 1 stageIds))).insertionSort stageLE).map (fun st => st.position))
      (intRange 1 stageIds.length) :=
    (hsortperm.map (fun st => st.position)).trans hposperm
  have hirnodup : (intRange 1 stageIds.length).Nodup :=
    (intRange_pairwise 1 stageIds.length).imp (fun h => ne_of_lt h)
  have hnodup_pos : ((((s.stages.filter (fun st => st.agent_id == A)).map
      (posOf (posPairs 1 stageIds))).insertionSort stageLE).map
        (fun st => st.position)).Nodup :=
    houtposperm.nodup_iff.mpr hirnodup
  have hpw_lt : (((s.stages.filter (fun st => st.agent_id == A)).map
      (posOf (posPairs 1 stageIds))).insertionSort stageLE).Pairwise
        (fun a b => a.position < b.position) := by
    have hle : (((s.stages.filter (fun st => st.agent_id == A)).map
        (posOf (posPairs 1 stageIds))).insertionSort stageLE).Pairwise stageLE :=
      List.sorted_insertionSort stageLE _
    have hne : (((s.stages.filter (fun st => st.agent_id == A)).map
        (posOf (posPairs 1 stageIds))).insertionSort stageLE).Pairwise
          (fun a b => a.position ≠ b.position) :=
      List.pairwise_map.mp hnodup_pos
    exact (hle.and hne).imp (fun h => lt_of_le_of_ne h.1 h.2)
  have hposlt : ((((s.stages.filter (fun st => st.agent_id == A)).map
      (posOf (posPairs 1 stageIds))).insertionSort stageLE).map
        (fun st => st.position)).Pairwise (fun a b : Int => a < b) := by
    rw [List.pairwise_map]
    exact hpw_lt
  have hpos_eq : ((((s.stages.filter (fun st => st.agent_id == A)).map
      (posOf (posPairs 1 stageIds))).insertionSort stageLE).map (fun st => st.position))
      = intRange 1 stageIds.length :=
    List.eq_of_perm_of_sorted houtposperm hposlt (intRange_pairwise 1 stageIds.length)
  have hlen_out : (((s.stages.filter (fun st => st.agent_id == A)).map
      (posOf (posPairs 1 stageIds))).insertionSort stageLE).length = stageIds.length := by
    rw [List.length_insertionSort, List.length_map]
    have := hperm.length_eq
    rw [List.length_map] at this
    exact this
  have hids_eq : ((((s.stages.filter (fun st => st.agent_id == A)).map
      (posOf (posPairs 1 stageIds))).insertionSort stageLE).map (fun st => st.id))
      = stageIds := by
    apply List.ext_getElem
    · rw [List.length_map, hlen_out]
    · intro j h1 h2
      rw [List.getElem_map]
      have hj1 : j < (((s.stages.filter (fun st => st.agent_id == A)).map
          (posOf (posPairs 1 stageIds))).insertionSort stageLE).length := by
        rw [List.length_map] at h1
        exact h1
      have hstm := List.getElem_mem hj1
      have hstl := hsortperm.subset hstm
      rcases hchar _ hstl with ⟨j2, hj2, hid2, hpos2⟩
      have hj3 : j < ((((s.stages.filter (fun st => st.agent_id == A)).map
          (posOf (posPairs 1 stageIds))).insertionSort stageLE).map
            (fun st => st.position)).length := by
        rw [List.length_map]
        exact hj1
      have hp1 : ((((s.stages.filter (fun st => st.agent_id == A)).map
          (posOf (posPairs 1 stageIds))).insertionSort stageLE).map
            (fun st => st.position))[j] = ((((s.stages.filter
              (fun st => st.agent_id == A)).map
                (posOf (posPairs 1 stageIds))).insertionSort stageLE)[j]).position := by
        rw [List.getElem_map]
      have hp2 : ((((s.stages.filter (fun st => st.agent_id == A)).map
          (posOf (posPairs 1 stageIds))).insertionSort stageLE).map
            (fun st => st.position))[j] = 1 + (j : Int) := by
        have he := List.getElem_of_eq hpos_eq hj3
        rw [he, intRange_getElem]
      have hjj : j2 = j := by
        have := hp1.symm.trans hp2
        rw [hpos2] at this
        omega
      subst hjj
      exact hid2
  refine ⟨listStages A { s with stages := s.stages.map (posOf (posPairs 1 stageIds)) },
    hfirst, rfl, ?_, ?_⟩
  · rw [hout]
    exact hids_eq
  · rw [hout]
    exact hpos_eq

/-- Concrete store for the C7 witness. -/
def reorderWStore : Store :=
  { stages := [{ id := 1, agent_id := "t1", name := "a", position := 1 },
               { id := 2, agent_id := "t1", name := "b", position := 2 },
               { id := 3, agent_id := "t1", name := "c", position := 3 }] }

/-- Witness for (amended) C7: `reorderStages [3, 1, 2]` on a tenant whose
stages are exactly 1, 2, 3. -/
theorem reorderStages_reorders_witness :
    (reorderWStore.stages.map (fun st => st.id)).Nodup ∧
    ([3, 1, 2] : List Nat).Nodup ∧
    List.Perm ((reorderWStore.stages.filter
      (fun st => st.agent_id == "t1")).map (fun st => st.id)) [3, 1, 2] ∧
    (∃ out,
      reorderStages "t1" [3, 1, 2] reorderWStore =
        (Except.ok out,
          { reorderWStore with
            stages := reorderWStore.stages.map (posOf (posPairs 1 [3, 1, 2])) }) ∧
      out = listStages "t1"
        { reorderWStore with
          stages := reorderWStore.stages.map (posOf (posPairs 1 [3, 1, 2])) } ∧
      out.map (fun st => st.id) = [3, 1, 2] ∧
      out.map (fun st => st.position) = intRange 1 ([3, 1, 2] : List Nat).length) :=
  ⟨by decide, by decide, by decide,
    reorderStages_reorders "t1" [3, 1, 2] reorderWStore (by decide) (by decide) (by decide)⟩

/-- Concrete store refuting C7 as literally stated (for every ordered list
of stage ids): reordering a strict subset of the tenant's stages leaves the
other stages in the listing, so `listStages` does not return just the
listed stages in listed order. -/
def reorderCexStore : Store :=
  { stages := [{ id := 1, agent_id := "A", name := "S1", position := 1 },
               { id := 2, agent_id := "A", name := "S2", position := 2 }] }

/-- Counterexample to C7 as stated: after `reorderStages ["2"]` completes,
`listStages` returns stages with id order [1, 2], not the listed order [2]. -/
theorem reorderStages_reorders_cex :
    ∃ out, (reorderStages "A" [2] reorderCexStore).1 = Except.ok out ∧
      ¬(out.map (fun st => st.id) = [2]) := by
  refine ⟨[{ id := 1, agent_id := "A", name := "S1", position := 1 },
           { id := 2, agent_id := "A", name := "S2", position := 1 }], ?_, ?_⟩
  · decide
  · decide

-- ============ C1: tenant isolation ============

/-- Splitting a conjunctive filter into two passes. -/
theorem filter_and_split {a : Type} (p q : a → Bool) :
    ∀ l : List a, l.filter (fun x => p x && q x) = (l.filter p).filter q := by
  intro l
  induction l with
  | nil => rfl
  | cons x t ih =>
      cases hp : p x with
      | true =>
          cases hq : q x with
          | true => simp [List.filter_cons, hp, hq, ih]
          | false => simp [List.filter_cons, hp, hq, ih]
      | false => simp [List.filter_cons, hp, ih]

/-- Pagination only ever drops rows. -/
theorem mem_paginate {lim off : Option Nat} {l : List Contact} {c : Contact}
    (h : c ∈ paginate lim off l) : c ∈ l := by
  rw [paginate] at h
  by_cases h1 : jsTruthyNat off = true
  · rw [if_pos h1] at h
    exact List.drop_subset _ _ (List.take_subset _ _ h)
  · rw [if_neg h1] at h
    by_cases h2 : jsTruthyNat lim = true
    · rw [if_pos h2] at h
      exact List.take_subset _ _ h
    · rw [if_neg h2] at h
      exact h

/-- A row passing an agent-guarded conjunctive filter carries that agent id. -/
theorem agent_of_mem_agent_filter {a : Type} (ag : a → String) (A : String) (q : a → Bool)
    {l : List a} {x : a} (h : x ∈ l.filter (fun y => ag y == A && q y)) : ag x = A := by
  have h2 := (List.mem_filter.mp h).2
  have h3 := (Bool.and_eq_true _ _ |>.mp h2).1
  simpa using h3

-- tenant slices, purged stores and referential coherence

/-- The store restricted to one tenant's rows in all four tables. -/
def purgeStore (A : String) (s : Store) : Store :=
  { stages := s.stages.filter (fun st => st.agent_id == A),
    contacts := s.contacts.filter (fun c => c.agent_id == A),
    interactions := s.interactions.filter (fun i => i.agent_id == A),
    tasks := s.tasks.filter (fun t => t.agent_id == A),
    nextStageId := s.nextStageId, nextContactId := s.nextContactId,
    nextInteractionId := s.nextInteractionId, nextTaskId := s.nextTaskId }

/-- Referential tenant-coherence: every foreign key that resolves to an
existing row stays within the owning row's tenant.  The layer never
validates this (callers can pass any id to createContact, moveStage,
addInteraction or addTask), but it holds whenever ids are only ever taken
from the same tenant's own rows. -/
def tenantRefsOwn (s : Store) : Bool :=
  (s.contacts.all fun c => s.stages.all fun st =>
      !(c.stage_id == some st.id) || (st.agent_id == c.agent_id)) &&
  (s.interactions.all fun i => s.contacts.all fun c =>
      !(i.contact_id == c.id) || (c.agent_id == i.agent_id)) &&
  (s.tasks.all fun t => s.contacts.all fun c =>
      !(t.contact_id == some c.id) || (c.agent_id == t.agent_id))

theorem refsOwn_contact (s : Store) (hco : tenantRefsOwn s = true)
    (c : Contact) (hc : c ∈ s.contacts) (st : Stage) (hst : st ∈ s.stages)
    (href : c.stage_id = some st.id) : st.agent_id = c.agent_id := by
  have h0 := (Bool.and_eq_true _ _ |>.mp hco).1
  have h1 := (Bool.and_eq_true _ _ |>.mp h0).1
  have h2 := List.all_eq_true.mp h1 c hc
  have h3 := List.all_eq_true.mp h2 st hst
  have hbeq : (c.stage_id == some st.id) = true := by rw [href]; exact beq_self_eq_true _
  rw [hbeq] at h3
  simpa using h3

theorem refsOwn_interaction (s : Store) (hco : tenantRefsOwn s = true)
    (i : Interaction) (hi : i ∈ s.interactions) (c : Contact) (hc : c ∈ s.contacts)
    (href : i.contact_id = c.id) : c.agent_id = i.agent_id := by
  have h0 := (Bool.and_eq_true _ _ |>.mp hco).1
  have h1 := (Bool.and_eq_true _ _ |>.mp h0).2
  have h2 := List.all_eq_true.mp h1 i hi
  have h3 := List.all_eq_true.mp h2 c hc
  have hbeq : (i.contact_id == c.id) = true := by rw [href]; exact beq_self_eq_true _
  rw [hbeq] at h3
  simpa using h3

theorem refsOwn_task (s : Store) (hco : tenantRefsOwn s = true)
    (t : Task) (ht : t ∈ s.tasks) (c : Contact) (hc : c ∈ s.contacts)
    (href : t.contact_id = some c.id) : c.agent_id = t.agent_id := by
  have h0 := (Bool.and_eq_true _ _ |>.mp hco).2
  have h2 := List.all_eq_true.mp h0 t ht
  have h3 := List.all_eq_true.mp h2 c hc
  have hbeq : (t.contact_id == some c.id) = true := by rw [href]; exact beq_self_eq_true _
  rw [hbeq] at h3
  simpa using h3

/-- When the matching element is unique, find? returns it. -/
theorem find?_eq_some_of_unique {a : Type} (p : a → Bool) :
    ∀ (l : List a) (x : a), x ∈ l → p x = true →
      (∀ y ∈ l, p y = true → y = x) → l.find? p = some x := by
  intro l
  induction l with
  | nil => intro x hx _ _; cases hx
  | cons z t ih =>
      intro x hx hpx huniq
      cases hz : p z with
      | true =>
          have hstep : (z :: t).find? p = some z := by rw [List.find?_cons, hz]
          rw [hstep]
          exact congrArg some (huniq z (List.mem_cons_self z t) hz)
      | false =>
          have hstep : (z :: t).find? p = t.find? p := by rw [List.find?_cons, hz]
          rw [hstep]
          have hxt : x ∈ t := by
            rcases List.mem_cons.mp hx with h | h
            · rw [h] at hpx
              rw [hpx] at hz
              exact absurd hz (by decide)
            · exact h
          exact ih x hxt hpx (fun y hy hpy => huniq y (List.mem_cons_of_mem z hy) hpy)

/-- A stage embed whose resolving rows all belong to the purging tenant is
unchanged by the purge. -/
theorem stageEmbed_purge (A : String) (s : Store)
    (hnd : (s.stages.map (fun st => st.id)).Nodup) (sid : Option Nat)
    (hown : ∀ st ∈ s.stages, sid = some st.id → st.agent_id = A) :
    stageEmbed (purgeStore A s) sid = stageEmbed s sid := by
  cases hsid : sid with
  | none => rfl
  | some i =>
      show ((purgeStore A s).stages.find? (fun st => st.id == i)).map
          (fun st => StageEmbed.mk st.name st.color)
        = (s.stages.find? (fun st => st.id == i)).map
            (fun st => StageEmbed.mk st.name st.color)
      suffices h : (purgeStore A s).stages.find? (fun st => st.id == i)
          = s.stages.find? (fun st => st.id == i) by rw [h]
      cases hfind : s.stages.find? (fun st => st.id == i) with
      | none =>
          apply List.find?_eq_none.mpr
          intro st hst
          exact List.find?_eq_none.mp hfind st (List.mem_of_mem_filter hst)
      | some st0 =>
          have hpst0 := List.find?_some hfind
          have hmem0 : st0 ∈ s.stages := List.mem_of_find?_eq_some hfind
          have hid : st0.id = i := by simpa using hpst0
          have hA : st0.agent_id = A := hown st0 hmem0 (by rw [hid, hsid])
          have hmemp : st0 ∈ (purgeStore A s).stages :=
            List.mem_filter.mpr ⟨hmem0, by rw [hA]; exact beq_self_eq_true A⟩
          apply find?_eq_some_of_unique _ _ st0 hmemp hpst0
          intro y hy hpy
          have hymem : y ∈ s.stages := List.mem_of_mem_filter hy
          have hyid : y.id = i := by simpa using hpy
          exact List.inj_on_of_nodup_map hnd hymem hmem0 (by rw [hyid, hid])

/-- A contact embed whose resolving rows all belong to the purging tenant
is unchanged by the purge. -/
theorem contactEmbed_purge (A : String) (s : Store)
    (hnd : (s.contacts.map (fun c => c.id)).Nodup) (cid : Option Nat)
    (hown : ∀ c ∈ s.contacts, cid = some c.id → c.agent_id = A) :
    contactEmbed (purgeStore A s) cid = contactEmbed s cid := by
  cases hcid : cid with
  | none => rfl
  | some i =>
      show ((purgeStore A s).contacts.find? (fun c => c.id == i)).map
          (fun c => ContactEmbed.mk c.name c.email c.company)
        = (s.contacts.find? (fun c => c.id == i)).map
            (fun c => ContactEmbed.mk c.name c.email c.company)
      suffices h : (purgeStore A s).contacts.find? (fun c => c.id == i)
          = s.contacts.find? (fun c => c.id == i) by rw [h]
      cases hfind : s.contacts.find? (fun c => c.id == i) with
      | none =>
          apply List.find?_eq_none.mpr
          intro c hc
          exact List.find?_eq_none.mp hfind c (List.mem_of_mem_filter hc)
      | some c0 =>
          have hpc0 := List.find?_some hfind
          have hmem0 : c0 ∈ s.contacts := List.mem_of_find?_eq_some hfind
          have hid : c0.id = i := by simpa using hpc0
          have hA : c0.agent_id = A := hown c0 hmem0 (by rw [hid, hcid])
          have hmemp : c0 ∈ (purgeStore A s).contacts :=
            List.mem_filter.mpr ⟨hmem0, by rw [hA]; exact beq_self_eq_true A⟩
          apply find?_eq_some_of_unique _ _ c0 hmemp hpc0
          intro y hy hpy
          have hymem : y ∈ s.contacts := List.mem_of_mem_filter hy
          have hyid : y.id = i := by simpa using hpy
          exact List.inj_on_of_nodup_map hnd hymem hmem0 (by rw [hyid, hid])

-- reads under the bound tenant return only rows stamped with it

theorem listStages_agent (A : String) (s : Store) :
    ∀ st ∈ listStages A s, st.agent_id = A := by
  intro st hst
  rw [listStages, List.mem_insertionSort] at hst
  have := (List.mem_filter.mp hst).2
  simpa using this

theorem listContacts_agent (A : String) (o : ListContactsOptions) (s : Store) :
    ∀ cj ∈ listContacts A o s, cj.row.agent_id = A := by
  intro cj hcj
  rcases List.mem_map.mp hcj with ⟨c, hc, heq⟩
  have h1 := mem_paginate hc
  rw [List.mem_insertionSort] at h1
  rw [← heq]
  exact agent_of_mem_agent_filter (fun c : Contact => c.agent_id) A (contactOptsFilter o) h1

theorem searchContacts_agent (A : String) (q : String) (lim : Option Nat) (s : Store) :
    ∀ cj ∈ searchContacts A q lim s, cj.row.agent_id = A := by
  intro cj hcj
  rcases List.mem_map.mp hcj with ⟨c, hc, heq⟩
  have h1 : c ∈ (s.contacts.filter
      (fun c => c.agent_id == A && searchMatch q c)).insertionSort contactRecencyGE := by
    by_cases h2 : jsTruthyNat lim = true
    · rw [if_pos h2] at hc
      exact List.take_subset _ _ hc
    · rw [if_neg h2] at hc
      exact hc
  rw [List.mem_insertionSort] at h1
  rw [← heq]
  exact agent_of_mem_agent_filter (fun c : Contact => c.agent_id) A (searchMatch q) h1

theorem listInteractions_agent (A : String) (o : ListInteractionsOptions) (s : Store) :
    ∀ ij ∈ listInteractions A o s, ij.row.agent_id = A := by
  intro ij hij
  rcases List.mem_map.mp hij with ⟨i, hi, heq⟩
  have h1 : i ∈ (s.interactions.filter
      (fun i => i.agent_id == A && interactionOptsFilter o i)).insertionSort
        interactionRecencyGE := by
    by_cases h2 : jsTruthyNat o.limit = true
    · rw [if_pos h2] at hi
      exact List.take_subset _ _ hi
    · rw [if_neg h2] at hi
      exact hi
  rw [List.mem_insertionSort] at h1
  rw [← heq]
  exact agent_of_mem_agent_filter (fun i : Interaction => i.agent_id) A
    (interactionOptsFilter o) h1

theorem listTasks_agent (A : String) (o : ListTasksOptions) (s : Store) :
    ∀ tj ∈ listTasks A o s, tj.row.agent_id = A := by
  intro tj htj
  rcases List.mem_map.mp htj with ⟨t, ht, heq⟩
  have h1 : t ∈ (s.tasks.filter
      (fun t => t.agent_id == A && taskOptsFilter o t)).insertionSort taskLE := by
    by_cases h2 : jsTruthyNat o.limit = true
    · rw [if_pos h2] at ht
      exact List.take_subset _ _ ht
    · rw [if_neg h2] at ht
      exact ht
  rw [List.mem_insertionSort] at h1
  rw [← heq]
  exact agent_of_mem_agent_filter (fun t : Task => t.agent_id) A (taskOptsFilter o) h1

theorem getOverdueTasks_agent (A : String) (now : Nat) (s : Store) :
    ∀ tj ∈ getOverdueTasks A now s, tj.row.agent_id = A := by
  intro tj htj
  rcases List.mem_map.mp htj with ⟨t, ht, heq⟩
  rw [List.mem_insertionSort] at ht
  rw [← heq]
  exact agent_of_mem_agent_filter (fun t : Task => t.agent_id) A (overdueFilter now) ht

theorem getContact_agent (A : String) (cid : Nat) (s : Store) :
    ∀ cj, getContact A cid s = Except.ok cj → cj.row.agent_id = A := by
  intro cj h
  rw [getContact] at h
  cases hm : s.contacts.filter (contactMatch A cid) with
  | nil => rw [hm] at h; cases h
  | cons c0 t =>
      cases t with
      | nil =>
          rw [hm] at h
          have hc0 : c0 ∈ s.contacts.filter (contactMatch A cid) :=
            hm ▸ List.mem_singleton_self c0
          have h2 := (List.mem_filter.mp hc0).2
          have h3 := (Bool.and_eq_true _ _ |>.mp h2).2
          have h4 : c0.agent_id = A := by simpa using h3
          injection h with hh
          rw [← hh]
          exact h4
      | cons c1 t2 => rw [hm] at h; cases h

-- reads are computed from the tenant's own slice of the store alone

theorem listStages_purge (A : String) (s : Store) :
    listStages A (purgeStore A s) = listStages A s := by
  rw [listStages, listStages]
  have hbase : (purgeStore A s).stages.filter (fun st => st.agent_id == A)
      = s.stages.filter (fun st => st.agent_id == A) := by
    apply filter_filter_keep
    intro st hst
    exact hst
  rw [hbase]

theorem listContacts_purge (A : String) (o : ListContactsOptions) (s : Store)
    (hco : tenantRefsOwn s = true)
    (hndS : (s.stages.map (fun st => st.id)).Nodup) :
    listContacts A o (purgeStore A s) = listContacts A o s := by
  have hbase : (purgeStore A s).contacts.filter (contactFilter A o)
      = s.contacts.filter (contactFilter A o) := by
    apply filter_filter_keep
    intro c hc
    exact (Bool.and_eq_true _ _ |>.mp hc).1
  rw [listContacts, listContacts, hbase]
  apply List.map_congr_left
  intro c hc
  have h1 := mem_paginate hc
  rw [List.mem_insertionSort] at h1
  have hcmem : c ∈ s.contacts := List.mem_of_mem_filter h1
  have hcA : c.agent_id = A :=
    agent_of_mem_agent_filter (fun c : Contact => c.agent_id) A (contactOptsFilter o) h1
  show ContactJoined.mk c (stageEmbed (purgeStore A s) c.stage_id)
    = ContactJoined.mk c (stageEmbed s c.stage_id)
  rw [stageEmbed_purge A s hndS c.stage_id
    (fun st hst href => (refsOwn_contact s hco c hcmem st hst href).trans hcA)]

theorem searchContacts_purge (A : String) (q : String) (lim : Option Nat) (s : Store)
    (hco : tenantRefsOwn s = true)
    (hndS : (s.stages.map (fun st => st.id)).Nodup) :
    searchContacts A q lim (purgeStore A s) = searchContacts A q lim s := by
  have hbase : (purgeStore A s).contacts.filter
        (fun c => c.agent_id == A && searchMatch q c)
      = s.contacts.filter (fun c => c.agent_id == A && searchMatch q c) := by
    apply filter_filter_keep
    intro c hc
    exact (Bool.and_eq_true _ _ |>.mp hc).1
  rw [searchContacts, searchContacts, hbase]
  apply List.map_congr_left
  intro c hc
  have h1 : c ∈ (s.contacts.filter
      (fun c => c.agent_id == A && searchMatch q c)).insertionSort contactRecencyGE := by
    by_cases h2 : jsTruthyNat lim = true
    · rw [if_pos h2] at hc
      exact List.take_subset _ _ hc
    · rw [if_neg h2] at hc
      exact hc
  rw [List.mem_insertionSort] at h1
  have hcmem : c ∈ s.contacts := List.mem_of_mem_filter h1
  have hcA : c.agent_id = A :=
    agent_of_mem_agent_filter (fun c : Contact => c.agent_id) A (searchMatch q) h1
  show ContactJoined.mk c (stageEmbed (purgeStore A s) c.stage_id)
    = ContactJoined.mk c (stageEmbed s c.stage_id)
  rw [stageEmbed_purge A s hndS c.stage_id
    (fun st hst href => (refsOwn_contact s hco c hcmem st hst href).trans hcA)]

theorem getContact_purge (A : String) (cid : Nat) (s : Store)
    (hco : tenantRefsOwn s = true)
    (hndS : (s.stages.map (fun st => st.id)).Nodup) :
    getContact A cid (purgeStore A s) = getContact A cid s := by
  have hbase : (purgeStore A s).contacts.filter (contactMatch A cid)
      = s.contacts.filter (contactMatch A cid) := by
    apply filter_filter_keep
    intro c hc
    exact (Bool.and_eq_true _ _ |>.mp hc).2
  rw [getContact, getContact, hbase]
  cases hm : s.contacts.filter (contactMatch A cid) with
  | nil => rfl
  | cons c0 t =>
      cases t with
      | cons c1 t2 => rfl
      | nil =>
          have hc0 : c0 ∈ s.contacts.filter (contactMatch A cid) :=
            hm ▸ List.mem_singleton_self c0
          have hmem : c0 ∈ s.contacts := List.mem_of_mem_filter hc0
          have hA : c0.agent_id = A := by
            simpa using (Bool.and_eq_true _ _ |>.mp (List.mem_filter.mp hc0).2).2
          show Except.ok (ContactJoined.mk c0 (stageEmbed (purgeStore A s) c0.stage_id))
            = Except.ok (ContactJoined.mk c0 (stageEmbed s c0.stage_id))
          rw [stageEmbed_purge A s hndS c0.stage_id
            (fun st hst href => (refsOwn_contact s hco c0 hmem st hst href).trans hA)]

theorem listInteractions_purge (A : String) (iopt : ListInteractionsOptions) (s : Store)
    (hco : tenantRefsOwn s = true)
    (hndC : (s.contacts.map (fun c => c.id)).Nodup) :
    listInteractions A iopt (purgeStore A s) = listInteractions A iopt s := by
  have hbase : (purgeStore A s).interactions.filter
        (fun i => i.agent_id == A && interactionOptsFilter iopt i)
      = s.interactions.filter (fun i => i.agent_id == A && interactionOptsFilter iopt i) := by
    apply filter_filter_keep
    intro i hi
    exact (Bool.and_eq_true _ _ |>.mp hi).1
  rw [listInteractions, listInteractions, hbase]
  apply List.map_congr_left
  intro i hi
  have h1 : i ∈ (s.interactions.filter
      (fun i => i.agent_id == A && interactionOptsFilter iopt i)).insertionSort
        interactionRecencyGE := by
    by_cases h2 : jsTruthyNat iopt.limit = true
    · rw [if_pos h2] at hi
      exact List.take_subset _ _ hi
    · rw [if_neg h2] at hi
      exact hi
  rw [List.mem_insertionSort] at h1
  have himem : i ∈ s.interactions := List.mem_of_mem_filter h1
  have hiA : i.agent_id = A :=
    agent_of_mem_agent_filter (fun i : Interaction => i.agent_id) A
      (interactionOptsFilter iopt) h1
  show InteractionJoined.mk i (contactEmbed (purgeStore A s) (some i.contact_id))
    = InteractionJoined.mk i (contactEmbed s (some i.contact_id))
  rw [contactEmbed_purge A s hndC (some i.contact_id)
    (fun c hc href =>
      (refsOwn_interaction s hco i himem c hc (by simpa using href)).trans hiA)]

theorem listTasks_purge (A : String) (topt : ListTasksOptions) (s : Store)
    (hco : tenantRefsOwn s = true)
    (hndC : (s.contacts.map (fun c => c.id)).Nodup) :
    listTasks A topt (purgeStore A s) = listTasks A topt s := by
  have hbase : (purgeStore A s).tasks.filter
        (fun t => t.agent_id == A && taskOptsFilter topt t)
      = s.tasks.filter (fun t => t.agent_id == A && taskOptsFilter topt t) := by
    apply filter_filter_keep
    intro t ht
    exact (Bool.and_eq_true _ _ |>.mp ht).1
  rw [listTasks, listTasks, hbase]
  apply List.map_congr_left
  intro t ht
  have h1 : t ∈ (s.tasks.filter
      (fun t => t.agent_id == A && taskOptsFilter topt t)).insertionSort taskLE := by
    by_cases h2 : jsTruthyNat topt.limit = true
    · rw [if_pos h2] at ht
      exact List.take_subset _ _ ht
    · rw [if_neg h2] at ht
      exact ht
  rw [List.mem_insertionSort] at h1
  have htmem : t ∈ s.tasks := List.mem_of_mem_filter h1
  have htA : t.agent_id = A :=
    agent_of_mem_agent_filter (fun t : Task => t.agent_id) A (taskOptsFilter topt) h1
  show TaskJoined.mk t (contactEmbed (purgeStore A s) t.contact_id)
    = TaskJoined.mk t (contactEmbed s t.contact_id)
  rw [contactEmbed_purge A s hndC t.contact_id
    (fun c hc href => (refsOwn_task s hco t htmem c hc href).trans htA)]

theorem getOverdueTasks_purge (A : String) (now : Nat) (s : Store)
    (hco : tenantRefsOwn s = true)
    (hndC : (s.contacts.map (fun c => c.id)).Nodup) :
    getOverdueTasks A now (purgeStore A s) = getOverdueTasks A now s := by
  have hbase : (purgeStore A s).tasks.filter
        (fun t => t.agent_id == A && overdueFilter now t)
      = s.tasks.filter (fun t => t.agent_id == A && overdueFilter now t) := by
    apply filter_filter_keep
    intro t ht
    exact (Bool.and_eq_true _ _ |>.mp ht).1
  rw [getOverdueTasks, getOverdueTasks, hbase]
  apply List.map_congr_left
  intro t ht
  have h1 := ht
  rw [List.mem_insertionSort] at h1
  have htmem : t ∈ s.tasks := List.mem_of_mem_filter h1
  have htA : t.agent_id = A :=
    agent_of_mem_agent_filter (fun t : Task => t.agent_id) A (overdueFilter now) h1
  show TaskJoined.mk t (contactEmbed (purgeStore A s) t.contact_id)
    = TaskJoined.mk t (contactEmbed s t.contact_id)
  rw [contactEmbed_purge A s hndC t.contact_id
    (fun c hc href => (refsOwn_task s hco t htmem c hc href).trans htA)]

theorem getPipelineStats_purge (A : String) (s : Store) :
    getPipelineStats A (purgeStore A s) = getPipelineStats A s := by
  have hl := listStages_purge A s
  have hcf : (purgeStore A s).contacts.filter (fun c => c.agent_id == A && c.is_active)
      = s.contacts.filter (fun c => c.agent_id == A && c.is_active) := by
    apply filter_filter_keep
    intro c hc
    exact (Bool.and_eq_true _ _ |>.mp hc).1
  rw [getPipelineStats, getPipelineStats, hl, hcf]

-- writes bound to another tenant leave this tenant's slice untouched

/-- Two stores with the same per-table tenant slices have the same view. -/
theorem tenantView_eq_of_filters (A : String) (s1 s2 : Store)
    (h1 : s1.stages.filter (fun st => st.agent_id == A)
      = s2.stages.filter (fun st => st.agent_id == A))
    (h2 : s1.contacts.filter (fun c => c.agent_id == A)
      = s2.contacts.filter (fun c => c.agent_id == A))
    (h3 : s1.interactions.filter (fun i => i.agent_id == A)
      = s2.interactions.filter (fun i => i.agent_id == A))
    (h4 : s1.tasks.filter (fun t => t.agent_id == A)
      = s2.tasks.filter (fun t => t.agent_id == A)) :
    tenantView A s1 = tenantView A s2 := by
  rw [tenantView, tenantView, h1, h2, h3, h4]

/-- A conditional rewrite of rows of another tenant does not change this
tenant's filter. -/
theorem filter_map_cond_agent {a : Type} (ag : a → String) (A B : String) (hAB : A ≠ B)
    (cond : a → Bool) (hcond : ∀ x, cond x = true → ag x = B)
    (f : a → a) (hf : ∀ x, ag (f x) = ag x) (l : List a) :
    (l.map (fun x => if cond x then f x else x)).filter (fun x => ag x == A)
      = l.filter (fun x => ag x == A) := by
  apply filter_map_cond
  · intro x hx
    cases hc : cond x with
    | false => rfl
    | true =>
        have hB : ag x = B := hcond x hc
        have hA : ag x = A := by simpa using hx
        exact absurd (hA.symm.trans hB) hAB
  · intro x hcx
    have hB : ag (f x) = B := (hf x).trans (hcond x hcx)
    have : (ag (f x) == A) = false := by
      rw [hB]
      exact beq_eq_false_iff_ne.mpr (fun h => hAB h.symm)
    exact this

/-- Appending a row of another tenant does not change this tenant's filter. -/
theorem filter_append_agent {a : Type} (ag : a → String) (A B : String) (hAB : A ≠ B)
    (x : a) (hx : ag x = B) (l : List a) :
    (l ++ [x]).filter (fun y => ag y == A) = l.filter (fun y => ag y == A) := by
  apply filter_append_reject
  rw [hx]
  exact beq_eq_false_iff_ne.mpr (fun h => hAB h.symm)

/-- Deleting rows of another tenant does not change this tenant's filter. -/
theorem filter_delete_agent {a : Type} (ag : a → String) (A B : String) (hAB : A ≠ B)
    (cond : a → Bool) (hcond : ∀ x, cond x = true → ag x = B) (l : List a) :
    (l.filter (fun x => !(cond x))).filter (fun x => ag x == A)
      = l.filter (fun x => ag x == A) := by
  apply filter_filter_keep
  intro x hx
  cases hc : cond x with
  | false => rfl
  | true =>
      have hB : ag x = B := hcond x hc
      have hA : ag x = A := by simpa using hx
      exact absurd (hA.symm.trans hB) hAB

theorem stageMatch_agent (B : String) (id : Nat) :
    ∀ st, stageMatch B id st = true → st.agent_id = B := by
  intro st h
  have := (Bool.and_eq_true _ _ |>.mp h).2
  simpa using this

theorem contactMatch_agent (B : String) (id : Nat) :
    ∀ c, contactMatch B id c = true → c.agent_id = B := by
  intro c h
  have := (Bool.and_eq_true _ _ |>.mp h).2
  simpa using this

theorem interactionMatch_agent (B : String) (id : Nat) :
    ∀ i, interactionMatch B id i = true → i.agent_id = B := by
  intro i h
  have := (Bool.and_eq_true _ _ |>.mp h).2
  simpa using this

theorem taskMatch_agent (B : String) (id : Nat) :
    ∀ t, taskMatch B id t = true → t.agent_id = B := by
  intro t h
  have := (Bool.and_eq_true _ _ |>.mp h).2
  simpa using this

/-- Membership-relativized variant of filter_filter_keep. -/
theorem filter_filter_keep_mem {a : Type} (p keep : a → Bool) (l : List a)
    (h : ∀ x ∈ l, p x = true → keep x = true) :
    (l.filter keep).filter p = l.filter p := by
  induction l with
  | nil => rfl
  | cons z t ih =>
      have iht := ih (fun x hx hp => h x (List.mem_cons_of_mem z hx) hp)
      cases hk : keep z with
      | true =>
          have h1 : (z :: t).filter keep = z :: t.filter keep := by
            simp [List.filter_cons, hk]
          rw [h1, List.filter_cons, List.filter_cons, iht]
      | false =>
          have h1 : (z :: t).filter keep = t.filter keep := by
            simp [List.filter_cons, hk]
          rw [h1, iht]
          have hp : p z = false := by
            cases hpz : p z with
            | false => rfl
            | true => rw [h z (List.mem_cons_self z t) hpz] at hk; cases hk
          rw [List.filter_cons, hp]
          simp

/-- Membership-relativized variant of filter_map_cond_agent. -/
theorem filter_map_cond_agent_mem {a : Type} (ag : a → String) (A B : String) (hAB : A ≠ B)
    (cond : a → Bool) (f : a → a) (hf : ∀ x, ag (f x) = ag x) (l : List a)
    (hcond : ∀ x ∈ l, cond x = true → ag x = B) :
    (l.map (fun x => if cond x then f x else x)).filter (fun x => ag x == A)
      = l.filter (fun x => ag x == A) := by
  induction l with
  | nil => rfl
  | cons z t ih =>
      have iht := ih (fun x hx hcx => hcond x (List.mem_cons_of_mem z hx) hcx)
      rw [List.map_cons, List.filter_cons, List.filter_cons]
      cases hc : cond z with
      | false =>
          simp only [Bool.false_eq_true, if_false]
          rw [iht]
      | true =>
          have hB : ag z = B := hcond z (List.mem_cons_self z t) hc
          have h1 : (ag (f z) == A) = false := by
            rw [hf z, hB]
            exact beq_eq_false_iff_ne.mpr (fun h => hAB h.symm)
          have h2 : (ag z == A) = false := by
            rw [hB]
            exact beq_eq_false_iff_ne.mpr (fun h => hAB h.symm)
          show (if (ag (f z) == A) = true then
              f z :: (List.map (fun x => if cond x = true then f x else x) t).filter
                (fun x => ag x == A)
            else (List.map (fun x => if cond x = true then f x else x) t).filter
              (fun x => ag x == A))
            = if (ag z == A) = true then z :: t.filter (fun x => ag x == A)
              else t.filter (fun x => ag x == A)
          rw [h1, h2]
          simp only [Bool.false_eq_true, if_false]
          exact iht

theorem view_crmCreateStage (A B : String) (hAB : A ≠ B) (si : StageInput) (now : Nat)
    (s : Store) : tenantView A (crmCreateStage B si now s).2 = tenantView A s := by
  rw [crmCreateStage]
  cases hb : jsTruthyStr si.name with
  | false => rfl
  | true =>
      show tenantView A (dbCreateStage B (si.name.getD "") _ si.color now s).2 = tenantView A s
      exact tenantView_eq_of_filters A _ s
        (filter_append_agent (fun st : Stage => st.agent_id) A B hAB _ rfl _) rfl rfl rfl

theorem view_updateStage (A B : String) (hAB : A ≠ B) (id : Nat) (u : StageUpdate)
    (s : Store) : tenantView A (updateStage B id u s).2 = tenantView A s := by
  rw [updateStage]
  cases hm : s.stages.filter (stageMatch B id) with
  | nil => rfl
  | cons x t =>
      cases t with
      | nil =>
          exact tenantView_eq_of_filters A _ s
            (filter_map_cond_agent (fun st : Stage => st.agent_id) A B hAB _ (stageMatch_agent B id)
              (applyStageUpdate u) (fun st => rfl) _) rfl rfl rfl
      | cons y t2 =>
          exact tenantView_eq_of_filters A _ s
            (filter_map_cond_agent (fun st : Stage => st.agent_id) A B hAB _ (stageMatch_agent B id)
              (applyStageUpdate u) (fun st => rfl) _) rfl rfl rfl

theorem view_deleteStage (A B : String) (hAB : A ≠ B) (id : Nat) (s : Store)
    (hco : tenantRefsOwn s = true) :
    tenantView A (deleteStage B id s) = tenantView A s := by
  have hcontacts : (s.contacts.map (fun c =>
        if refsDeletedStage (s.stages.filter (stageMatch B id)) c then
          { c with stage_id := none } else c)).filter (fun c => c.agent_id == A)
      = s.contacts.filter (fun c => c.agent_id == A) := by
    apply filter_map_cond_agent_mem (fun c : Contact => c.agent_id) A B hAB
      (refsDeletedStage (s.stages.filter (stageMatch B id)))
      (fun c => { c with stage_id := none }) (fun c => rfl)
    intro c hcm hcref
    rw [refsDeletedStage] at hcref
    cases hsid : c.stage_id with
    | none =>
        rw [hsid] at hcref
        exact absurd hcref Bool.false_ne_true
    | some sid =>
        rw [hsid] at hcref
        rcases List.any_eq_true.mp hcref with ⟨st, hstmem, hsteq⟩
        have hstmem2 : st ∈ s.stages := List.mem_of_mem_filter hstmem
        have hstB : st.agent_id = B := stageMatch_agent B id st (List.mem_filter.mp hstmem).2
        have hstid : st.id = sid := by simpa using hsteq
        have hsame : st.agent_id = c.agent_id :=
          refsOwn_contact s hco c hcm st hstmem2 (by rw [hsid, hstid])
        rw [← hsame]
        exact hstB
  exact tenantView_eq_of_filters A _ s
    (filter_delete_agent (fun st : Stage => st.agent_id) A B hAB _ (stageMatch_agent B id) _)
    hcontacts rfl rfl

theorem view_reorderAux (A B : String) (hAB : A ≠ B) :
    ∀ (pairs : List (Nat × Int)) (s : Store),
      tenantView A (reorderAux B pairs s).2 = tenantView A s := by
  intro pairs
  induction pairs with
  | nil => intro s; rfl
  | cons pr rest ih =>
      intro s
      obtain ⟨i, p⟩ := pr
      rw [reorderAux]
      cases hu : updateStage B i { position := some p } s with
      | mk res s1 =>
          have hs1 : tenantView A s1 = tenantView A s := by
            have := view_updateStage A B hAB i { position := some p } s
            rw [hu] at this
            exact this
          cases res with
          | error e => exact hs1
          | ok _ =>
              show tenantView A (reorderAux B rest s1).2 = tenantView A s
              rw [ih s1, hs1]

theorem view_reorderStages (A B : String) (hAB : A ≠ B) (stageIds : List Nat) (s : Store) :
    tenantView A (reorderStages B stageIds s).2 = tenantView A s := by
  rw [reorderStages]
  cases ha : reorderAux B (posPairs 1 stageIds) s with
  | mk res s1 =>
      have hs1 : tenantView A s1 = tenantView A s := by
        have := view_reorderAux A B hAB (posPairs 1 stageIds) s
        rw [ha] at this
        exact this
      cases res with
      | error e => exact hs1
      | ok _ => exact hs1

theorem view_crmCreateContact (A B : String) (hAB : A ≠ B) (ci : ContactInput) (now : Nat)
    (s : Store) : tenantView A (crmCreateContact B ci now s).2 = tenantView A s := by
  rw [crmCreateContact]
  cases hb : jsTruthyStr ci.name with
  | false => rfl
  | true =>
      show tenantView A (dbCreateContact B ci now s).2 = tenantView A s
      exact tenantView_eq_of_filters A _ s rfl
        (filter_append_agent (fun c : Contact => c.agent_id) A B hAB _ rfl _) rfl rfl

theorem view_dbUpdateContact (A B : String) (hAB : A ≠ B) (id : Nat) (u : ContactUpdate)
    (now : Nat) (s : Store) : tenantView A (dbUpdateContact B id u now s).2 = tenantView A s := by
  rw [dbUpdateContact]
  cases hm : s.contacts.filter (contactMatch B id) with
  | nil => rfl
  | cons x t =>
      cases t with
      | nil =>
          exact tenantView_eq_of_filters A _ s rfl
            (filter_map_cond_agent (fun c : Contact => c.agent_id) A B hAB _ (contactMatch_agent B id)
              (applyContactUpdate u now) (fun c => rfl) _) rfl rfl
      | cons y t2 =>
          exact tenantView_eq_of_filters A _ s rfl
            (filter_map_cond_agent (fun c : Contact => c.agent_id) A B hAB _ (contactMatch_agent B id)
              (applyContactUpdate u now) (fun c => rfl) _) rfl rfl

theorem view_moveContactStage (A B : String) (hAB : A ≠ B) (id sid now : Nat) (s : Store) :
    tenantView A (moveContactStage B id sid now s).2 = tenantView A s := by
  rw [moveContactStage]
  cases hm : s.contacts.filter (contactMatch B id) with
  | nil => rfl
  | cons x t =>
      cases t with
      | nil =>
          exact tenantView_eq_of_filters A _ s rfl
            (filter_map_cond_agent (fun c : Contact => c.agent_id) A B hAB _ (contactMatch_agent B id)
              (fun c => { c with stage_id := some sid, stage_entered_at := some now, updated_at := now }) (fun c => rfl) _) rfl rfl
      | cons y t2 =>
          exact tenantView_eq_of_filters A _ s rfl
            (filter_map_cond_agent (fun c : Contact => c.agent_id) A B hAB _ (contactMatch_agent B id)
              (fun c => { c with stage_id := some sid, stage_entered_at := some now, updated_at := now }) (fun c => rfl) _) rfl rfl

theorem view_deleteContact (A B : String) (hAB : A ≠ B) (id : Nat) (s : Store)
    (hco : tenantRefsOwn s = true) :
    tenantView A (deleteContact B id s) = tenantView A s := by
  have hints : (s.interactions.filter (fun i =>
        !(interactionRefsDeleted (s.contacts.filter (contactMatch B id)) i))).filter
          (fun i => i.agent_id == A)
      = s.interactions.filter (fun i => i.agent_id == A) := by
    apply filter_filter_keep_mem
    intro i himem hiA
    show (!(interactionRefsDeleted (s.contacts.filter (contactMatch B id)) i)) = true
    cases hc : interactionRefsDeleted (s.contacts.filter (contactMatch B id)) i with
    | false => rfl
    | true =>
        exfalso
        rw [interactionRefsDeleted] at hc
        rcases List.any_eq_true.mp hc with ⟨c, hcmem, hceq⟩
        have hcmem2 : c ∈ s.contacts := List.mem_of_mem_filter hcmem
        have hcB : c.agent_id = B := contactMatch_agent B id c (List.mem_filter.mp hcmem).2
        have hidc : i.contact_id = c.id := by simpa using hceq
        have hagg : c.agent_id = i.agent_id := refsOwn_interaction s hco i himem c hcmem2 hidc
        have hiA2 : i.agent_id = A := by simpa using hiA
        exact hAB ((hiA2.symm.trans hagg.symm).trans hcB)
  have htasks : (s.tasks.filter (fun t =>
        !(taskRefsDeleted (s.contacts.filter (contactMatch B id)) t))).filter
          (fun t => t.agent_id == A)
      = s.tasks.filter (fun t => t.agent_id == A) := by
    apply filter_filter_keep_mem
    intro t htmem htA
    show (!(taskRefsDeleted (s.contacts.filter (contactMatch B id)) t)) = true
    cases hc : taskRefsDeleted (s.contacts.filter (contactMatch B id)) t with
    | false => rfl
    | true =>
        exfalso
        rw [taskRefsDeleted] at hc
        cases hcid : t.contact_id with
        | none =>
            rw [hcid] at hc
            exact absurd hc Bool.false_ne_true
        | some cid =>
            rw [hcid] at hc
            rcases List.any_eq_true.mp hc with ⟨c, hcmem, hceq⟩
            have hcmem2 : c ∈ s.contacts := List.mem_of_mem_filter hcmem
            have hcB : c.agent_id = B := contactMatch_agent B id c (List.mem_filter.mp hcmem).2
            have hidc : t.contact_id = some c.id := by
              rw [hcid]
              have h5 : cid = c.id := by simpa using hceq
              rw [h5]
            have hagg : c.agent_id = t.agent_id := refsOwn_task s hco t htmem c hcmem2 hidc
            have htA2 : t.agent_id = A := by simpa using htA
            exact hAB ((htA2.symm.trans hagg.symm).trans hcB)
  exact tenantView_eq_of_filters A _ s rfl
    (filter_delete_agent (fun c : Contact => c.agent_id) A B hAB _ (contactMatch_agent B id) _)
    hints htasks

theorem view_dbAddInteraction (A B : String) (hAB : A ≠ B) (ii : InteractionInput)
    (now : Nat) (s : Store) : tenantView A (dbAddInteraction B ii now s).2 = tenantView A s := by
  rw [dbAddInteraction]
  have hview1 : tenantView A { s with
      interactions := s.interactions ++ [interactionRow B ii now s.nextInteractionId],
      nextInteractionId := s.nextInteractionId + 1 } = tenantView A s :=
    tenantView_eq_of_filters A _ s rfl rfl
      (filter_append_agent (fun i : Interaction => i.agent_id) A B hAB _ rfl _) rfl
  cases hu : dbUpdateContact B (ii.contactId.getD 0) { lastContactAt := some (some now) } now
      { s with interactions := s.interactions ++ [interactionRow B ii now s.nextInteractionId],
               nextInteractionId := s.nextInteractionId + 1 } with
  | mk res s1 =>
      have hs1 : tenantView A s1 = tenantView A s := by
        have := view_dbUpdateContact A B hAB (ii.contactId.getD 0)
          { lastContactAt := some (some now) } now
          { s with interactions := s.interactions ++ [interactionRow B ii now s.nextInteractionId],
                   nextInteractionId := s.nextInteractionId + 1 }
        rw [hu] at this
        rw [this]
        exact hview1
      cases res with
      | error e => exact hs1
      | ok _ => exact hs1

theorem view_crmAddInteraction (A B : String) (hAB : A ≠ B) (ii : InteractionInput)
    (now : Nat) (s : Store) : tenantView A (crmAddInteraction B ii now s).2 = tenantView A s := by
  rw [crmAddInteraction]
  cases h1 : jsTruthyNat ii.contactId with
  | false => rfl
  | true =>
      cases h2 : jsTruthyStr ii.itype with
      | false => rfl
      | true =>
          cases h3 : jsTruthyStr ii.createdBy with
          | false => rfl
          | true => exact view_dbAddInteraction A B hAB ii now s

theorem view_updateInteraction (A B : String) (hAB : A ≠ B) (id : Nat) (u : InteractionUpdate)
    (s : Store) : tenantView A (updateInteraction B id u s).2 = tenantView A s := by
  rw [updateInteraction]
  cases hm : s.interactions.filter (interactionMatch B id) with
  | nil => rfl
  | cons x t =>
      cases t with
      | nil =>
          exact tenantView_eq_of_filters A _ s rfl rfl
            (filter_map_cond_agent (fun i : Interaction => i.agent_id) A B hAB _
              (interactionMatch_agent B id) (applyInteractionUpdate u) (fun i => rfl) _) rfl
      | cons y t2 =>
          exact tenantView_eq_of_filters A _ s rfl rfl
            (filter_map_cond_agent (fun i : Interaction => i.agent_id) A B hAB _
              (interactionMatch_agent B id) (applyInteractionUpdate u) (fun i => rfl) _) rfl

theorem view_deleteInteraction (A B : String) (hAB : A ≠ B) (id : Nat) (s : Store) :
    tenantView A (deleteInteraction B id s) = tenantView A s :=
  tenantView_eq_of_filters A _ s rfl rfl
    (filter_delete_agent (fun i : Interaction => i.agent_id) A B hAB _ (interactionMatch_agent B id) _) rfl

theorem view_crmAddTask (A B : String) (hAB : A ≠ B) (ti : TaskInput) (now : Nat) (s : Store) :
    tenantView A (crmAddTask B ti now s).2 = tenantView A s := by
  rw [crmAddTask]
  cases hb : jsTruthyStr ti.title with
  | false => rfl
  | true =>
      show tenantView A (dbAddTask B ti now s).2 = tenantView A s
      exact tenantView_eq_of_filters A _ s rfl rfl rfl
        (filter_append_agent (fun t : Task => t.agent_id) A B hAB _ rfl _)

theorem view_completeTask (A B : String) (hAB : A ≠ B) (id now : Nat) (s : Store) :
    tenantView A (completeTask B id now s).2 = tenantView A s := by
  rw [completeTask]
  cases hm : s.tasks.filter (taskMatch B id) with
  | nil => rfl
  | cons x t =>
      cases t with
      | nil =>
          exact tenantView_eq_of_filters A _ s rfl rfl rfl
            (filter_map_cond_agent (fun t : Task => t.agent_id) A B hAB _ (taskMatch_agent B id)
              (fun t => { t with completed := true, completed_at := some now }) (fun t => rfl) _)
      | cons y t2 =>
          exact tenantView_eq_of_filters A _ s rfl rfl rfl
            (filter_map_cond_agent (fun t : Task => t.agent_id) A B hAB _ (taskMatch_agent B id)
              (fun t => { t with completed := true, completed_at := some now }) (fun t => rfl) _)

theorem view_uncompleteTask (A B : String) (hAB : A ≠ B) (id : Nat) (s : Store) :
    tenantView A (uncompleteTask B id s).2 = tenantView A s := by
  rw [uncompleteTask]
  cases hm : s.tasks.filter (taskMatch B id) with
  | nil => rfl
  | cons x t =>
      cases t with
      | nil =>
          exact tenantView_eq_of_filters A _ s rfl rfl rfl
            (filter_map_cond_agent (fun t : Task => t.agent_id) A B hAB _ (taskMatch_agent B id)
              (fun t => { t with completed := false, completed_at := none }) (fun t => rfl) _)
      | cons y t2 =>
          exact tenantView_eq_of_filters A _ s rfl rfl rfl
            (filter_map_cond_agent (fun t : Task => t.agent_id) A B hAB _ (taskMatch_agent B id)
              (fun t => { t with completed := false, completed_at := none }) (fun t => rfl) _)

theorem view_updateTask (A B : String) (hAB : A ≠ B) (id : Nat) (u : TaskUpdate) (s : Store) :
    tenantView A (updateTask B id u s).2 = tenantView A s := by
  rw [updateTask]
  cases hm : s.tasks.filter (taskMatch B id) with
  | nil => rfl
  | cons x t =>
      cases t with
      | nil =>
          exact tenantView_eq_of_filters A _ s rfl rfl rfl
            (filter_map_cond_agent (fun t : Task => t.agent_id) A B hAB _ (taskMatch_agent B id)
              (applyTaskUpdate u) (fun t => rfl) _)
      | cons y t2 =>
          exact tenantView_eq_of_filters A _ s rfl rfl rfl
            (filter_map_cond_agent (fun t : Task => t.agent_id) A B hAB _ (taskMatch_agent B id)
              (applyTaskUpdate u) (fun t => rfl) _)

theorem view_deleteTask (A B : String) (hAB : A ≠ B) (id : Nat) (s : Store) :
    tenantView A (deleteTask B id s) = tenantView A s :=
  tenantView_eq_of_filters A _ s rfl rfl rfl
    (filter_delete_agent (fun t : Task => t.agent_id) A B hAB _ (taskMatch_agent B id) _)

/-- What amended C1 asserts: reads stamped with the tenant, reads computed
from the tenant's own slice alone, and other-tenant writes (including the
referential delete actions) leaving the tenant's slice untouched. -/
def TenantIsolated (A B : String) (s : Store) (now : Nat)
    (o : ListContactsOptions) (iopt : ListInteractionsOptions) (topt : ListTasksOptions)
    (q : String) (lim : Option Nat) (sid cid iid tid : Nat) (stageIds : List Nat)
    (si : StageInput) (ci : ContactInput) (ii : InteractionInput) (ti : TaskInput)
    (su : StageUpdate) (cu : ContactUpdate) (iu : InteractionUpdate) (tu : TaskUpdate) :
    Prop :=
  (∀ st ∈ listStages A s, st.agent_id = A) ∧
  (∀ cj ∈ listContacts A o s, cj.row.agent_id = A) ∧
  (∀ cj ∈ searchContacts A q lim s, cj.row.agent_id = A) ∧
  (∀ ij ∈ listInteractions A iopt s, ij.row.agent_id = A) ∧
  (∀ tj ∈ listTasks A topt s, tj.row.agent_id = A) ∧
  (∀ tj ∈ getOverdueTasks A now s, tj.row.agent_id = A) ∧
  (∀ cj, getContact A cid s = Except.ok cj → cj.row.agent_id = A) ∧
  listStages A (purgeStore A s) = listStages A s ∧
  listContacts A o (purgeStore A s) = listContacts A o s ∧
  searchContacts A q lim (purgeStore A s) = searchContacts A q lim s ∧
  listInteractions A iopt (purgeStore A s) = listInteractions A iopt s ∧
  listTasks A topt (purgeStore A s) = listTasks A topt s ∧
  getOverdueTasks A now (purgeStore A s) = getOverdueTasks A now s ∧
  getContact A cid (purgeStore A s) = getContact A cid s ∧
  getPipelineStats A (purgeStore A s) = getPipelineStats A s ∧
  tenantView A (crmCreateStage B si now s).2 = tenantView A s ∧
  tenantView A (updateStage B sid su s).2 = tenantView A s ∧
  tenantView A (deleteStage B sid s) = tenantView A s ∧
  tenantView A (reorderStages B stageIds s).2 = tenantView A s ∧
  tenantView A (crmCreateContact B ci now s).2 = tenantView A s ∧
  tenantView A (dbUpdateContact B cid cu now s).2 = tenantView A s ∧
  tenantView A (moveContactStage B cid sid now s).2 = tenantView A s ∧
  tenantView A (deleteContact B cid s) = tenantView A s ∧
  tenantView A (crmAddInteraction B ii now s).2 = tenantView A s ∧
  tenantView A (updateInteraction B iid iu s).2 = tenantView A s ∧
  tenantView A (deleteInteraction B iid s) = tenantView A s ∧
  tenantView A (crmAddTask B ti now s).2 = tenantView A s ∧
  tenantView A (completeTask B tid now s).2 = tenantView A s ∧
  tenantView A (uncompleteTask B tid s).2 = tenantView A s ∧
  tenantView A (updateTask B tid tu s).2 = tenantView A s ∧
  tenantView A (deleteTask B tid s) = tenantView A s

/-- Concrete store refuting C1 as stated: tenant a's task and interaction
reference tenant b's contact 9 (inserted by a's own addTask/addInteraction,
which never validate the contact id against the tenant). -/
def isolationCexStore : Store :=
  { contacts := [{ id := 9, agent_id := "b", name := "bcorp", email := some "e@b",
                   company := some "BC" }],
    interactions := [{ id := 1, agent_id := "a", contact_id := 9, itype := "call",
                       created_by := "u" }],
    tasks := [{ id := 1, agent_id := "a", title := "t", contact_id := some 9 }],
    nextContactId := 10, nextInteractionId := 2, nextTaskId := 2 }

/-- C1 counterexample: the original claim is false of the program.  With a
task and an interaction of tenant a referencing a contact of tenant b, a's
listTasks returns b's contact data through the tenant-unfiltered
crm_contacts embed, a's read changes when b's rows are removed, and b's
deleteContact cascades away a's interaction and task, changing a's slice. -/
theorem tenant_isolation_cex :
    (listTasks "a" {} isolationCexStore).map (fun tj => tj.crm_contacts)
        = [some { name := "bcorp", email := some "e@b", company := some "BC" }] ∧
    listTasks "a" {} isolationCexStore ≠ listTasks "a" {} (purgeStore "a" isolationCexStore) ∧
    tenantView "a" (deleteContact "b" 9 isolationCexStore) ≠ tenantView "a" isolationCexStore :=
  ⟨by decide, by decide, by decide⟩

/-- C1 (amended): provided every foreign key that resolves stays within its
owner's tenant and stage/contact ids are unique, every read issued under
tenant `A` returns only rows stamped with `A` and is computed from `A`'s
slice of the store alone (embedded join data included), and every write
issued under a different tenant `B` — including the cascade and set-null
referential actions of the deletes — leaves `A`'s slice of all four tables
untouched. -/
theorem tenant_isolation (A B : String) (hAB : A ≠ B) (s : Store)
    (hco : tenantRefsOwn s = true)
    (hndS : (s.stages.map (fun st => st.id)).Nodup)
    (hndC : (s.contacts.map (fun c => c.id)).Nodup) (now : Nat)
    (o : ListContactsOptions) (iopt : ListInteractionsOptions) (topt : ListTasksOptions)
    (q : String) (lim : Option Nat) (sid cid iid tid : Nat) (stageIds : List Nat)
    (si : StageInput) (ci : ContactInput) (ii : InteractionInput) (ti : TaskInput)
    (su : StageUpdate) (cu : ContactUpdate) (iu : InteractionUpdate) (tu : TaskUpdate) :
    TenantIsolated A B s now o iopt topt q lim sid cid iid tid stageIds si ci ii ti su cu iu tu :=
  ⟨listStages_agent A s, listContacts_agent A o s, searchContacts_agent A q lim s,
    listInteractions_agent A iopt s, listTasks_agent A topt s, getOverdueTasks_agent A now s,
    getContact_agent A cid s,
    listStages_purge A s,
    listContacts_purge A o s hco hndS,
    searchContacts_purge A q lim s hco hndS,
    listInteractions_purge A iopt s hco hndC,
    listTasks_purge A topt s hco hndC,
    getOverdueTasks_purge A now s hco hndC,
    getContact_purge A cid s hco hndS,
    getPipelineStats_purge A s,
    view_crmCreateStage A B hAB si now s,
    view_updateStage A B hAB sid su s,
    view_deleteStage A B hAB sid s hco,
    view_reorderStages A B hAB stageIds s,
    view_crmCreateContact A B hAB ci now s,
    view_dbUpdateContact A B hAB cid cu now s,
    view_moveContactStage A B hAB cid sid now s,
    view_deleteContact A B hAB cid s hco,
    view_crmAddInteraction A B hAB ii now s,
    view_updateInteraction A B hAB iid iu s,
    view_deleteInteraction A B hAB iid s,
    view_crmAddTask A B hAB ti now s,
    view_completeTask A B hAB tid now s,
    view_uncompleteTask A B hAB tid s,
    view_updateTask A B hAB tid tu s,
    view_deleteTask A B hAB tid s⟩

/-- Concrete store for the C1 witness, holding rows of both tenants with
all references inside their own tenant. -/
def isolationWStore : Store :=
  { stages := [{ id := 1, agent_id := "a", name := "Lead", position := 1 },
               { id := 2, agent_id := "b", name := "Lead", position := 1 }],
    contacts := [{ id := 1, agent_id := "a", name := "ca", deal_value := some 3 },
                 { id := 2, agent_id := "b", name := "cb", deal_value := some 4 }],
    interactions := [{ id := 1, agent_id := "b", contact_id := 2, itype := "note",
                       created_by := "u" }],
    tasks := [{ id := 1, agent_id := "a", title := "t" }],
    nextStageId := 3, nextContactId := 3, nextInteractionId := 2, nextTaskId := 2 }

/-- Witness for amended C1 at two concrete distinct tenants over a mixed,
referentially tenant-coherent store. -/
theorem tenant_isolation_witness :
    (("a" : String) ≠ "b") ∧ tenantRefsOwn isolationWStore = true ∧
    (isolationWStore.stages.map (fun st => st.id)).Nodup ∧
    (isolationWStore.contacts.map (fun c => c.id)).Nodup ∧
    TenantIsolated "a" "b" isolationWStore 9 {} {} {} "c" none 2 2 1 1 [2]
      { name := some "S" } { name := some "N", dealValue := some 7 }
      { contactId := some 2, itype := some "call", createdBy := some "u" }
      { title := some "T" } { position := some 5 } { name := some "renamed" }
      { subject := some (some "s") } { priority := some "high" } :=
  ⟨by decide, by decide, by decide, by decide,
    tenant_isolation "a" "b" (by decide) isolationWStore (by decide) (by decide) (by decide)
      9 {} {} {} "c" none 2 2 1 1 [2]
      { name := some "S" } { name := some "N", dealValue := some 7 }
      { contactId := some 2, itype := some "call", createdBy := some "u" }
      { title := some "T" } { position := some 5 } { name := some "renamed" }
      { subject := some (some "s") } { priority := some "high" }⟩

end CrmModel
